import Mathlib

set_option maxRecDepth 40000

/-!
Verification of the Panfletos RSS feed generator
(`src/panfletos_rss_generator.py`).

The script is shallowly embedded: text is modelled as `List Char`
(abbreviated `Str`), Python string operations (`strip`, `split`,
`replace`, `lower`, `int(...)`) become explicit Lean functions restricted
to the ASCII behaviour the program exercises, fallible operations
(`int(...)`, the `datetime` constructor) return `Except`/`Option`, and
`datetime.now()` becomes an explicit `now` parameter.
-/

/-- Text is modelled as a list of characters. -/
abbrev Str := List Char

/-- ASCII whitespace, the characters recognised by Python `str.strip()`,
`str.split()` and the regex class `\s` (Python also recognises some
further Unicode whitespace, which the scraped pages do not contain). -/
def pyIsSpace (c : Char) : Bool :=
  c == ' ' || c == '\t' || c == '\n' || c == '\r' || c == '\x0b' || c == '\x0c'

/-- Python `str.strip()`: remove leading and trailing whitespace. -/
def pyStrip (s : Str) : Str :=
  ((s.dropWhile pyIsSpace).reverse.dropWhile pyIsSpace).reverse

/-- Python `str.lower()` (ASCII range; the month table only contains
ASCII keys). -/
def pyLower (s : Str) : Str := s.map Char.toLower

/-- Auxiliary state machine for whitespace splitting: `acc` holds the
current token reversed. -/
def splitWsAux : Str → Str → List Str
  | [], acc => if acc = [] then [] else [acc.reverse]
  | c :: cs, acc =>
    if pyIsSpace c then
      if acc = [] then splitWsAux cs [] else acc.reverse :: splitWsAux cs []
    else splitWsAux cs (c :: acc)

/-- Python `str.split()` with no argument: split on runs of whitespace,
discarding empty pieces. -/
def pySplitWs (s : Str) : List Str := splitWsAux s []

/-- Value of a digit string, most significant digit first. -/
def digitsVal (s : Str) : Nat :=
  s.foldl (fun a c => a * 10 + (c.toNat - 48)) 0

/-- Nonempty and all decimal digits. -/
def isDigits (s : Str) : Bool := !s.isEmpty && s.all Char.isDigit

/-- Python `int(str)`: optional surrounding whitespace, optional sign,
decimal digits; anything else raises `ValueError`, modelled as `none`.
(Python additionally allows underscore group separators between digits,
which never occur in the scraped fragments and are not modelled.) -/
def pyParseInt (s : Str) : Option Int :=
  match pyStrip s with
  | [] => none
  | c :: rest =>
    if c = '+' then if isDigits rest then some (digitsVal rest) else none
    else if c = '-' then if isDigits rest then some (-(digitsVal rest : Int)) else none
    else if isDigits (c :: rest) then some (digitsVal (c :: rest)) else none

/-- `PT_MONTHS`: the fixed Portuguese month-abbreviation table. -/
def PT_MONTHS : List (Str × Nat) :=
  [("jan".data, 1), ("fev".data, 2), ("mar".data, 3), ("abr".data, 4),
   ("mai".data, 5), ("jun".data, 6), ("jul".data, 7), ("ago".data, 8),
   ("set".data, 9), ("out".data, 10), ("nov".data, 11), ("dez".data, 12)]

/-- `PT_MONTHS.get(key, 1)`: dictionary lookup with default 1. -/
def ptMonthGet (s : Str) : Nat :=
  ((PT_MONTHS.find? (fun p => p.1 == s)).map Prod.snd).getD 1

/-- Gregorian leap-year rule, as used by Python `datetime`. -/
def isLeapYear (y : Nat) : Bool :=
  (y % 4 == 0 && y % 100 != 0) || y % 400 == 0

/-- Number of days in a month (months are 1-based). -/
def daysInMonth (y m : Nat) : Nat :=
  match m with
  | 1 => 31 | 2 => if isLeapYear y then 29 else 28 | 3 => 31
  | 4 => 30 | 5 => 31 | 6 => 30 | 7 => 31 | 8 => 31
  | 9 => 30 | 10 => 31 | 11 => 30 | 12 => 31
  | _ => 0

/-- A Python `datetime.datetime` value (naive, second precision; the
script never uses finer fields). -/
structure PyDateTime where
  year : Nat
  month : Nat
  day : Nat
  hour : Nat
  minute : Nat
  second : Nat
deriving DecidableEq, Repr

/-- The Python `datetime(year, month, day, hour, minute, second)`
constructor: range-checks its arguments and raises `ValueError`
(modelled as `Except.error`) when they do not denote a real timestamp
(`datetime.MINYEAR = 1`, `datetime.MAXYEAR = 9999`). -/
def mkDatetime (year : Int) (month : Nat) (day : Int)
    (hour minute second : Nat) : Except Unit PyDateTime :=
  if 1 ≤ year ∧ year ≤ 9999 ∧ 1 ≤ month ∧ month ≤ 12 ∧
     1 ≤ day ∧ day ≤ (daysInMonth year.toNat month : Int) ∧
     hour < 24 ∧ minute < 60 ∧ second < 60 then
    .ok ⟨year.toNat, month, day.toNat, hour, minute, second⟩
  else .error ()

/-- `parse_pt_date`: strip, remove periods, strip, split on whitespace;
with exactly three tokens build `datetime(int(d), month, int(y), 12, 0, 0)`
(either `int(...)` or the `datetime` constructor may raise, modelled as
`Except.error`); any other token count returns `datetime.now()`,
modelled by the explicit `now` argument. -/
def parse_pt_date (now : PyDateTime) (date_str : Str) : Except Unit PyDateTime :=
  let cleaned := pyStrip ((pyStrip date_str).filter (· != '.'))
  match pySplitWs cleaned with
  | [p0, p1, p2] =>
    match pyParseInt p0 with
    | none => .error ()
    | some day =>
      let month := ptMonthGet (pyLower p1)
      match pyParseInt p2 with
      | none => .error ()
      | some year => mkDatetime year month day 12 0 0
  | _ => .ok now

/-- Scanner for the regex `(\d+)\s*min` under `re.search`: try each start
position left to right; at a digit, the greedy `\d+` must take the whole
maximal digit run (a shorter take leaves a digit where `\s*`/`min` would
have to match, so the engine's backtracking never helps), then skip
whitespace and require the literal `min`.  Returns the captured digits'
value. -/
def findDur : Str → Option Nat
  | [] => none
  | c :: cs =>
    if c.isDigit &&
       "min".data.isPrefixOf (((c :: cs).dropWhile Char.isDigit).dropWhile pyIsSpace)
    then some (digitsVal ((c :: cs).takeWhile Char.isDigit))
    else findDur cs

/-- `parse_duration`: strip and lowercase, search for `(\d+)\s*min`,
multiply the captured integer by 60; no match yields 0. -/
def parse_duration (dur_str : Str) : Nat :=
  match findDur (pyLower (pyStrip dur_str)) with
  | some d => d * 60
  | none => 0

/-- Declarative reading of the duration contract: position `i` carries a
match when a nonempty digit run starts there, followed (after optional
whitespace) by the literal `min`. -/
def durMatchAt (s : Str) (i : Nat) : Bool :=
  !((s.drop i).takeWhile Char.isDigit).isEmpty &&
  "min".data.isPrefixOf (((s.drop i).dropWhile Char.isDigit).dropWhile pyIsSpace)

/-- Declarative duration value: 60 times the digit run at the leftmost
matching position, 0 when no position matches. -/
def durSpec (s : Str) : Nat :=
  match (List.range s.length).find? (durMatchAt s) with
  | some i => digitsVal ((s.drop i).takeWhile Char.isDigit) * 60
  | none => 0

/-- The decimal digit character for `n < 10`. -/
def digitChar : Nat → Char
  | 0 => '0' | 1 => '1' | 2 => '2' | 3 => '3' | 4 => '4'
  | 5 => '5' | 6 => '6' | 7 => '7' | 8 => '8' | _ => '9'

/-- Decimal digits of `n`, most significant first (fuelled recursion on
the number of digits). -/
def natDigitsAux : Nat → Nat → Str
  | 0, _ => []
  | fuel + 1, n =>
    if n < 10 then [digitChar n]
    else natDigitsAux fuel (n / 10) ++ [digitChar (n % 10)]

/-- Python `str(n)` / `f-string` rendering of a nonnegative integer. -/
def natDigits (n : Nat) : Str := natDigitsAux (n + 1) n

/-- Python `f"{n:02d}"` for nonnegative `n`: zero-pad to width two. -/
def pad2 (n : Nat) : Str := if n < 10 then '0' :: natDigits n else natDigits n

/-- Days elapsed before January 1 of year `y` in the proleptic Gregorian
calendar (the scheme behind Python `date.toordinal`). -/
def daysBeforeYear (y : Nat) : Nat :=
  let n := y - 1
  n * 365 + n / 4 - n / 100 + n / 400

/-- Days elapsed in year `y` before month `m` begins. -/
def daysBeforeMonth (y : Nat) : Nat → Nat
  | 0 => 0
  | 1 => 0
  | m + 1 => daysBeforeMonth y m + daysInMonth y m

/-- Python `date.toordinal`: 0001-01-01 is day 1. -/
def toOrdinal (y m d : Nat) : Nat := daysBeforeYear y + daysBeforeMonth y m + d

/-- Python `datetime.weekday()`: Monday is 0, Sunday is 6. -/
def pyWeekday (y m d : Nat) : Nat := (toOrdinal y m d + 6) % 7

/-- The English weekday abbreviations used by `format_rfc822`. -/
def rfcDays : List Str :=
  ["Mon".data, "Tue".data, "Wed".data, "Thu".data, "Fri".data,
   "Sat".data, "Sun".data]

/-- The English month abbreviations used by `format_rfc822`. -/
def rfcMonths : List Str :=
  ["Jan".data, "Feb".data, "Mar".data, "Apr".data, "May".data, "Jun".data,
   "Jul".data, "Aug".data, "Sep".data, "Oct".data, "Nov".data, "Dec".data]

/-- `format_rfc822`: `"Ddd, DD Mon YYYY HH:MM:SS +0000"`.  `datetime`
guarantees `1 ≤ month ≤ 12`, so the list accesses are written with a
default that is never reached for values produced by `mkDatetime`. -/
def format_rfc822 (dt : PyDateTime) : Str :=
  rfcDays.getD (pyWeekday dt.year dt.month dt.day) [] ++ ", ".data ++
  pad2 dt.day ++ " ".data ++ rfcMonths.getD (dt.month - 1) [] ++ " ".data ++
  natDigits dt.year ++ " ".data ++ pad2 dt.hour ++ ":".data ++
  pad2 dt.minute ++ ":".data ++ pad2 dt.second ++ " +0000".data

/-- `format_itunes_duration`: `HH:MM:SS` with the hours field omitted
when zero. -/
def format_itunes_duration (seconds : Nat) : Str :=
  let h := seconds / 3600
  let m := (seconds % 3600) / 60
  let s := seconds % 60
  if h > 0 then pad2 h ++ ":".data ++ pad2 m ++ ":".data ++ pad2 s
  else pad2 m ++ ":".data ++ pad2 s

/-- Fuelled worker for `pyReplace`: every step consumes at least one
character, so fuel equal to the input length suffices; the fuel keeps
the recursion structural. -/
def pyReplaceAux (pat rep : Str) : Str → Nat → Str
  | _, 0 => []
  | [], _ => []
  | c :: cs, fuel + 1 =>
    if pat ≠ [] ∧ pat.isPrefixOf (c :: cs) then
      rep ++ pyReplaceAux pat rep (cs.drop (pat.length - 1)) fuel
    else c :: pyReplaceAux pat rep cs fuel

/-- Python `str.replace(pat, rep)`: replace every non-overlapping
occurrence of `pat`, scanning left to right (the script only uses
nonempty patterns). -/
def pyReplace (pat rep : Str) (s : Str) : Str := pyReplaceAux pat rep s s.length

/-- `xml_escape`: the five sequential replacements, ampersand first. -/
def xml_escape (text : Str) : Str :=
  pyReplace ['\''] "&apos;".data
    (pyReplace ['"'] "&quot;".data
      (pyReplace ['>'] "&gt;".data
        (pyReplace ['<'] "&lt;".data
          (pyReplace ['&'] "&amp;".data text))))

/-- Character-by-character XML escaping, the claimed meaning of
`xml_escape`. -/
def escChar (c : Char) : Str :=
  if c = '&' then "&amp;".data
  else if c = '<' then "&lt;".data
  else if c = '>' then "&gt;".data
  else if c = '"' then "&quot;".data
  else if c = '\'' then "&apos;".data
  else [c]

/-- An episode record, as built by the scraper or the hardcoded fallback
list (a Python dict with these keys; `audio_url` is absent or `None`
when unresolved, both modelled as `none`). -/
structure Episode where
  title : Str
  date : PyDateTime
  duration : Nat
  url : Str
  episode_id : Str
  audio_url : Option Str := none
deriving DecidableEq, Repr

/-- `PROGRAM_ID`. -/
def PROGRAM_ID : Str := "p8339".data
/-- `PROGRAM_SLUG`. -/
def PROGRAM_SLUG : Str := "panfletos".data
/-- `PROGRAM_TITLE`. -/
def PROGRAM_TITLE : Str := "Panfletos".data
/-- `PROGRAM_AUTHOR`. -/
def PROGRAM_AUTHOR : Str := "Pedro Tadeu".data
/-- `PROGRAM_DESCRIPTION`. -/
def PROGRAM_DESCRIPTION : Str :=
  ("As palavras-chave deste projeto são estas: música-política, canções-poder, " ++
   "criatividade-resistência, cultura-opressão, talento-censura, poesia-liberdade, " ++
   "arte-causas. Panfletos foi um programa de Ruben de Carvalho na antiga Telefonia " ++
   "de Lisboa. Recriado agora por Pedro Tadeu, na Antena 1, trata da relação íntima, " ++
   "ao longo dos tempos, da arte musical com a vida e a luta dos povos. " ++
   "Diariamente: uma canção na História.").data
/-- `PROGRAM_IMAGE`. -/
def PROGRAM_IMAGE : Str := "https://cdn-images.rtp.pt/EPG/radio/imagens/7290_10886_10223.jpg".data
/-- `PROGRAM_URL` (an f-string over the id and slug). -/
def PROGRAM_URL : Str := "https://www.rtp.pt/play/".data ++ PROGRAM_ID ++ "/".data ++ PROGRAM_SLUG
/-- `PROGRAM_CATEGORY`. -/
def PROGRAM_CATEGORY : Str := "Music".data
/-- `PROGRAM_LANGUAGE`. -/
def PROGRAM_LANGUAGE : Str := "pt".data
/-- `CHANNEL`. -/
def CHANNEL : Str := "Antena1".data
/-- `BASE_URL`. -/
def BASE_URL : Str := "https://www.rtp.pt".data
/-- `FEED_SELF_URL`. -/
def FEED_SELF_URL : Str := "https://javiercubre.github.io/panfletos-rss/panfletos.xml".data

/-- The lines `generate_rss` appends for one episode (the body of its
`for ep in episodes` loop, in order, including the two conditional
lines; Python's `if audio_url:` is falsy both for a missing key / `None`
and for an empty string). -/
def itemLines (ep : Episode) : List Str :=
  ["    <item>".data,
   "      <title>".data ++ xml_escape ep.title ++ "</title>".data,
   "      <link>".data ++ ep.url ++ "</link>".data,
   "      <guid isPermaLink=\"false\">rtp-panfletos-e".data ++ ep.episode_id ++ "</guid>".data,
   "      <pubDate>".data ++ format_rfc822 ep.date ++ "</pubDate>".data,
   "      <description>".data ++ xml_escape ep.title ++ " - ".data ++
     xml_escape PROGRAM_TITLE ++ " com ".data ++ xml_escape PROGRAM_AUTHOR ++
     " na ".data ++ CHANNEL ++ ".</description>".data] ++
  (match ep.audio_url with
   | some u =>
     if u = [] then []
     else ["      <enclosure url=\"".data ++ xml_escape u ++
           "\" length=\"0\" type=\"audio/mpeg\"/>".data]
   | none => []) ++
  (if ep.duration > 0 then
     ["      <itunes:duration>".data ++ format_itunes_duration ep.duration ++
      "</itunes:duration>".data]
   else []) ++
  ["      <itunes:author>".data ++ xml_escape PROGRAM_AUTHOR ++ "</itunes:author>".data,
   "      <itunes:summary>".data ++ xml_escape ep.title ++
     " - Panfletos: música-política, canções-poder, criatividade-resistência.</itunes:summary>".data,
   "    </item>".data]

/-- The full `lines` list built by `generate_rss` before the final join. -/
def rssLines (now : PyDateTime) (episodes : List Episode) : List Str :=
  ["<?xml version=\"1.0\" encoding=\"UTF-8\"?>".data,
   "<rss version=\"2.0\"".data,
   "  xmlns:itunes=\"http://www.itunes.com/dtds/podcast-1.0.dtd\"".data,
   "  xmlns:atom=\"http://www.w3.org/2005/Atom\">".data,
   "  <channel>".data,
   "    <title>".data ++ xml_escape PROGRAM_TITLE ++ "</title>".data,
   "    <link>".data ++ PROGRAM_URL ++ "</link>".data,
   "    <description>".data ++ xml_escape PROGRAM_DESCRIPTION ++ "</description>".data,
   "    <language>".data ++ PROGRAM_LANGUAGE ++ "</language>".data,
   "    <copyright>© RTP - Rádio e Televisão de Portugal</copyright>".data,
   "    <lastBuildDate>".data ++ format_rfc822 now ++ "</lastBuildDate>".data,
   "    <generator>Panfletos RSS Generator</generator>".data,
   "    <atom:link href=\"".data ++ FEED_SELF_URL ++ "\" rel=\"self\" type=\"application/rss+xml\"/>".data,
   "    <itunes:author>".data ++ xml_escape PROGRAM_AUTHOR ++ "</itunes:author>".data,
   "    <itunes:summary>".data ++ xml_escape PROGRAM_DESCRIPTION ++ "</itunes:summary>".data,
   "    <itunes:type>episodic</itunes:type>".data,
   "    <itunes:explicit>false</itunes:explicit>".data,
   "    <itunes:owner>".data,
   "      <itunes:name>".data ++ xml_escape PROGRAM_AUTHOR ++ "</itunes:name>".data,
   "    </itunes:owner>".data,
   "    <itunes:category text=\"".data ++ PROGRAM_CATEGORY ++ "\"/>".data,
   "    <image>".data,
   "      <url>".data ++ PROGRAM_IMAGE ++ "</url>".data,
   "      <title>".data ++ xml_escape PROGRAM_TITLE ++ "</title>".data,
   "      <link>".data ++ PROGRAM_URL ++ "</link>".data,
   "    </image>".data,
   "    <itunes:image href=\"".data ++ PROGRAM_IMAGE ++ "\"/>".data] ++
  episodes.flatMap itemLines ++
  ["  </channel>".data, "</rss>".data]

/-- `'\n'.join(lines)`. -/
def joinNL : List Str → Str
  | [] => []
  | [l] => l
  | l :: l2 :: ls => l ++ '\n' :: joinNL (l2 :: ls)

/-- `generate_rss`: the joined document.  `datetime.now()` (used for
`lastBuildDate`) is the explicit `now` argument. -/
def generate_rss (now : PyDateTime) (episodes : List Episode) : Str :=
  joinNL (rssLines now episodes)

/-- The fixed fallback episode list of `generate_feed_from_hardcoded_data`. -/
def hardcodedEpisodes : List Episode :=
  [⟨("Cara de Espelho e \"A Seita\"").data, ⟨2026, 2, 11, 12, 0, 0⟩, 420,
      BASE_URL ++ "/play/".data ++ PROGRAM_ID ++ "/e908229/".data ++ PROGRAM_SLUG, "908229".data, none⟩,
   ⟨("Bad Bunny e \"DtMF\"").data, ⟨2026, 2, 10, 12, 0, 0⟩, 420,
      BASE_URL ++ "/play/".data ++ PROGRAM_ID ++ "/e907966/".data ++ PROGRAM_SLUG, "907966".data, none⟩,
   ⟨("Moonspell e \"Desastre\"").data, ⟨2026, 2, 9, 12, 0, 0⟩, 420,
      BASE_URL ++ "/play/".data ++ PROGRAM_ID ++ "/e907751/".data ++ PROGRAM_SLUG, "907751".data, none⟩,
   ⟨("Semana de 02 a 06 de Fevereiro de 2026").data, ⟨2026, 2, 7, 12, 0, 0⟩, 1620,
      BASE_URL ++ "/play/".data ++ PROGRAM_ID ++ "/e907740/".data ++ PROGRAM_SLUG, "907740".data, none⟩,
   ⟨("Carlos Paredes e \"Verdes Anos\"").data, ⟨2026, 2, 6, 12, 0, 0⟩, 420,
      BASE_URL ++ "/play/".data ++ PROGRAM_ID ++ "/e907254/".data ++ PROGRAM_SLUG, "907254".data, none⟩,
   ⟨("Verdi e o coro dos escravos hebreus").data, ⟨2026, 2, 5, 12, 0, 0⟩, 420,
      BASE_URL ++ "/play/".data ++ PROGRAM_ID ++ "/e907010/".data ++ PROGRAM_SLUG, "907010".data, none⟩,
   ⟨("Billy Bragg e \"City of Heroes\"").data, ⟨2026, 2, 4, 12, 0, 0⟩, 420,
      BASE_URL ++ "/play/".data ++ PROGRAM_ID ++ "/e906746/".data ++ PROGRAM_SLUG, "906746".data, none⟩,
   ⟨("Nicki Minaj e \"Black Barbies\"").data, ⟨2026, 2, 3, 12, 0, 0⟩, 420,
      BASE_URL ++ "/play/".data ++ PROGRAM_ID ++ "/e906461/".data ++ PROGRAM_SLUG, "906461".data, none⟩,
   ⟨("Bruce Springsteen e \"Streets of Minneapolis\"").data, ⟨2026, 2, 2, 12, 0, 0⟩, 420,
      BASE_URL ++ "/play/".data ++ PROGRAM_ID ++ "/e906203/".data ++ PROGRAM_SLUG, "906203".data, none⟩,
   ⟨("Semana de 26 a 30 de Janeiro de 2026").data, ⟨2026, 1, 31, 12, 0, 0⟩, 1920,
      BASE_URL ++ "/play/".data ++ PROGRAM_ID ++ "/e905765/".data ++ PROGRAM_SLUG, "905765".data, none⟩,
   ⟨("Dino d".data ++ ['\''] ++ "Santiago e \"Utopia\"".data), ⟨2026, 1, 30, 12, 0, 0⟩, 420,
      BASE_URL ++ "/play/".data ++ PROGRAM_ID ++ "/e905712/".data ++ PROGRAM_SLUG, "905712".data, none⟩,
   ⟨("Pedro Abrunhosa e \"Oxalá o meu vestido ainda se lembre de mim\"").data, ⟨2026, 1, 29, 12, 0, 0⟩, 420,
      BASE_URL ++ "/play/".data ++ PROGRAM_ID ++ "/e905426/".data ++ PROGRAM_SLUG, "905426".data, none⟩]

/-- `generate_feed_from_hardcoded_data`: render the fixed list. -/
def generate_feed_from_hardcoded_data (now : PyDateTime) : Str :=
  generate_rss now hardcodedEpisodes

/-- One anchor element of the scraped page, as surfaced by
BeautifulSoup: its `href` attribute and its `stripped_strings` text
fragments.  The HTML tree parsing itself is the external
`BeautifulSoup` library, abstracted away exactly as the spec abstracts
the page fetcher. -/
structure ScrapeLink where
  href : Str
  texts : List Str
deriving Repr

/-- `re.search` of the compiled pattern
`/play/p8339/e(\d+)/panfletos`: try each start position left to right;
a match needs the literal prefix, a nonempty digit run (the greedy
`\d+` must take the whole run: a shorter take leaves a digit where `/`
would have to match), then the literal `/panfletos`.  Returns group 1. -/
def epSearch : Str → Option Str
  | [] => none
  | c :: cs =>
    if ("/play/".data ++ PROGRAM_ID ++ "/e".data).isPrefixOf (c :: cs) then
      let rest := (c :: cs).drop ("/play/".data ++ PROGRAM_ID ++ "/e".data).length
      let run := rest.takeWhile Char.isDigit
      if !run.isEmpty &&
         ("/".data ++ PROGRAM_SLUG).isPrefixOf (rest.dropWhile Char.isDigit) then
        some run
      else epSearch cs
    else epSearch cs

/-- The loop body of `scrape_episodes_from_html` over the anchors
BeautifulSoup found (anchors whose `href` does not match the pattern
are the ones `find_all(..., href=ep_pattern)` filters out / the
`continue` skips).  `parse_pt_date` may raise, which propagates. -/
def scrapeFromLinks (now : PyDateTime) : List ScrapeLink → Except Unit (List Episode)
  | [] => .ok []
  | l :: ls =>
    match epSearch l.href with
    | none => scrapeFromLinks now ls
    | some eid => do
      let parts := l.texts.map pyStrip
      let title := match parts with
        | [] => (l.texts.map pyStrip).flatten
        | t :: _ => t
      let date_str := parts.getD 1 []
      let duration_str := parts.getD 2 []
      let ep_date ← if date_str ≠ [] then parse_pt_date now date_str else .ok now
      let duration_secs := if duration_str ≠ [] then parse_duration duration_str else 0
      let rest ← scrapeFromLinks now ls
      .ok ({ title := title, date := ep_date, duration := duration_secs,
             url := BASE_URL ++ l.href, episode_id := eid, audio_url := none } :: rest)

/-- Mode of the XML well-formedness scanner: where in the markup the
scan currently stands. -/
inductive XMode where
  /-- Character data between tags. -/
  | text : XMode
  /-- Inside an entity reference in character data; `buf` holds the
  name read so far. -/
  | ent (buf : Str) : XMode
  /-- Immediately after `<`. -/
  | tagStart : XMode
  /-- Inside `</...`; `buf` holds the name read so far. -/
  | closeName (buf : Str) : XMode
  /-- Inside the name of an opening tag. -/
  | openName (buf : Str) : XMode
  /-- Inside the attribute region of an opening tag named `name`;
  `inQ` records whether the scan stands inside a quoted value. -/
  | attrs (name : Str) (inQ : Bool) : XMode
  /-- Inside an entity reference in a quoted attribute value. -/
  | attrEnt (name : Str) (buf : Str) : XMode
  /-- After the `/` of a self-closing tag, expecting `>`. -/
  | selfEnd (name : Str) : XMode
  /-- Inside a processing instruction (`<?...`). -/
  | pi : XMode
  /-- Inside a processing instruction, after a `?`. -/
  | piQ : XMode
deriving DecidableEq, Repr

/-- Scanner state: current mode plus the stack of open element names. -/
structure XSt where
  mode : XMode
  stack : List Str
deriving DecidableEq, Repr

/-- The five entity names a well-formed document in this development may
reference. -/
def entNames : List Str :=
  ["amp".data, "lt".data, "gt".data, "quot".data, "apos".data]

/-- Characters allowed to continue an element name. -/
def nameChar (c : Char) : Bool :=
  c.isAlpha || c.isDigit || c == ':' || c == '-' || c == '_'

/-- One scanner step: consume `c` in state `st`, or fail on markup that
cannot occur in a well-formed document (stray `<`, `&` not starting a
known entity, mismatched close tag, malformed tag syntax). -/
def xstep (st : XSt) (c : Char) : Option XSt :=
  match st.mode with
  | .text =>
    if c = '<' then some ⟨.tagStart, st.stack⟩
    else if c = '&' then some ⟨.ent [], st.stack⟩
    else some st
  | .ent buf =>
    if c = ';' then
      if buf ∈ entNames then some ⟨.text, st.stack⟩ else none
    else if c.isAlpha then some ⟨.ent (buf ++ [c]), st.stack⟩
    else none
  | .tagStart =>
    if c = '/' then some ⟨.closeName [], st.stack⟩
    else if c = '?' then some ⟨.pi, st.stack⟩
    else if c.isAlpha then some ⟨.openName [c], st.stack⟩
    else none
  | .closeName buf =>
    if c = '>' then
      match st.stack with
      | n :: rest => if n = buf then some ⟨.text, rest⟩ else none
      | [] => none
    else if nameChar c then some ⟨.closeName (buf ++ [c]), st.stack⟩
    else none
  | .openName buf =>
    if c = '>' then some ⟨.text, buf :: st.stack⟩
    else if c = '/' then some ⟨.selfEnd buf, st.stack⟩
    else if pyIsSpace c then some ⟨.attrs buf false, st.stack⟩
    else if nameChar c then some ⟨.openName (buf ++ [c]), st.stack⟩
    else none
  | .attrs name inQ =>
    if inQ then
      if c = '"' then some ⟨.attrs name false, st.stack⟩
      else if c = '<' then none
      else if c = '&' then some ⟨.attrEnt name [], st.stack⟩
      else some st
    else
      if c = '"' then some ⟨.attrs name true, st.stack⟩
      else if c = '>' then some ⟨.text, name :: st.stack⟩
      else if c = '/' then some ⟨.selfEnd name, st.stack⟩
      else if c = '<' ∨ c = '&' then none
      else some st
  | .attrEnt name buf =>
    if c = ';' then
      if buf ∈ entNames then some ⟨.attrs name true, st.stack⟩ else none
    else if c.isAlpha then some ⟨.attrEnt name (buf ++ [c]), st.stack⟩
    else none
  | .selfEnd _ =>
    if c = '>' then some ⟨.text, st.stack⟩ else none
  | .pi =>
    if c = '?' then some ⟨.piQ, st.stack⟩ else some st
  | .piQ =>
    if c = '>' then some ⟨.text, st.stack⟩
    else if c = '?' then some st
    else some ⟨.pi, st.stack⟩

/-- Run the scanner over a string. -/
def xscan : Str → XSt → Option XSt
  | [], st => some st
  | c :: cs, st =>
    match xstep st c with
    | some st2 => xscan cs st2
    | none => none

/-- Well-formed document: the scan consumes the whole text without
error, ends in character data, and every opened element was closed. -/
def wellFormedXml (s : Str) : Bool :=
  xscan s ⟨.text, []⟩ == some ⟨.text, []⟩

/-- Test: is this rendered line an `<enclosure>` line? -/
def encTest (l : Str) : Bool := "      <enclosure".data.isPrefixOf l

/-- Test: is this rendered line an `<itunes:duration>` line? -/
def durTest (l : Str) : Bool := "      <itunes:duration>".data.isPrefixOf l

/-- Characters that the scanner passes through unchanged in character
data: everything except `<` and `&`. -/
def textSafe (c : Char) : Bool := !(c == '<' || c == '&')

/-- The channel lines before `lastBuildDate` (all closed terms). -/
def chanLinesA : List Str :=
  ["<?xml version=\"1.0\" encoding=\"UTF-8\"?>".data,
   "<rss version=\"2.0\"".data,
   "  xmlns:itunes=\"http://www.itunes.com/dtds/podcast-1.0.dtd\"".data,
   "  xmlns:atom=\"http://www.w3.org/2005/Atom\">".data,
   "  <channel>".data,
   "    <title>".data ++ xml_escape PROGRAM_TITLE ++ "</title>".data,
   "    <link>".data ++ PROGRAM_URL ++ "</link>".data,
   "    <description>".data ++ xml_escape PROGRAM_DESCRIPTION ++ "</description>".data,
   "    <language>".data ++ PROGRAM_LANGUAGE ++ "</language>".data,
   "    <copyright>© RTP - Rádio e Televisão de Portugal</copyright>".data]

/-- The channel lines after `lastBuildDate` (all closed terms). -/
def chanLinesB : List Str :=
  ["    <generator>Panfletos RSS Generator</generator>".data,
   "    <atom:link href=\"".data ++ FEED_SELF_URL ++ "\" rel=\"self\" type=\"application/rss+xml\"/>".data,
   "    <itunes:author>".data ++ xml_escape PROGRAM_AUTHOR ++ "</itunes:author>".data,
   "    <itunes:summary>".data ++ xml_escape PROGRAM_DESCRIPTION ++ "</itunes:summary>".data,
   "    <itunes:type>episodic</itunes:type>".data,
   "    <itunes:explicit>false</itunes:explicit>".data,
   "    <itunes:owner>".data,
   "      <itunes:name>".data ++ xml_escape PROGRAM_AUTHOR ++ "</itunes:name>".data,
   "    </itunes:owner>".data,
   "    <itunes:category text=\"".data ++ PROGRAM_CATEGORY ++ "\"/>".data,
   "    <image>".data,
   "      <url>".data ++ PROGRAM_IMAGE ++ "</url>".data,
   "      <title>".data ++ xml_escape PROGRAM_TITLE ++ "</title>".data,
   "      <link>".data ++ PROGRAM_URL ++ "</link>".data,
   "    </image>".data,
   "    <itunes:image href=\"".data ++ PROGRAM_IMAGE ++ "\"/>".data]

/-- The closing lines of the document. -/
def footerLines : List Str := ["  </channel>".data, "</rss>".data]

/-- Stack of open elements while scanning channel content. -/
def stkChan : List Str := ["channel".data, "rss".data]

/-- Stack of open elements while scanning item content. -/
def stkItem : List Str := ["item".data, "channel".data, "rss".data]

/-- A fixed reference timestamp standing in for `datetime.now()` in
closed evaluations. -/
def testNow : PyDateTime := ⟨2026, 2, 11, 12, 0, 0⟩

/-- The episode ids of a scrape result (empty on a raised exception). -/
def scrapedIds (r : Except Unit (List Episode)) : List Str :=
  match r with
  | .ok es => es.map (fun e => e.episode_id)
  | .error _ => []

/-- An anchor for episode 908229, as surfaced twice when the page links
the same episode twice. -/
def dupLink : ScrapeLink := ⟨"/play/p8339/e908229/panfletos".data, ["Title".data]⟩

/-- An episode whose URL contains a raw ampersand (a legal URL query
string); structurally valid input for the renderer. -/
def ampEpisode : Episode :=
  { title := "T".data, date := ⟨2026, 2, 11, 12, 0, 0⟩, duration := 420,
    url := "https://www.rtp.pt/play/p8339/e1/panfletos?a=1&b=2".data,
    episode_id := "1".data, audio_url := none }

/-- An episode whose `audio_url` is set to the empty string, which
Python's `if audio_url:` treats as unset. -/
def emptyAudioEpisode : Episode :=
  { title := "T".data, date := ⟨2026, 2, 11, 12, 0, 0⟩, duration := 420,
    url := "https://www.rtp.pt/play/p8339/e2/panfletos".data,
    episode_id := "2".data, audio_url := some [] }

/-- Test: is this rendered line a `<guid>` line? -/
def guidTest (l : Str) : Bool := "      <guid ".data.isPrefixOf l

/-- An episode with a resolved audio URL. -/
def audioEpisode : Episode :=
  { title := "T".data, date := ⟨2026, 2, 11, 12, 0, 0⟩, duration := 420,
    url := "https://www.rtp.pt/play/p8339/e3/panfletos".data,
    episode_id := "3".data, audio_url := some "https://streaming.rtp.pt/ep3.mp3".data }

/-- Single-character `pyReplaceAux` acts independently on every
character, given sufficient fuel. -/
theorem pyReplaceAux_single (p : Char) (rep : Str) :
    ∀ (s : Str) (fuel : Nat), s.length ≤ fuel →
      pyReplaceAux [p] rep s fuel = s.flatMap (fun c => if c = p then rep else [c]) := by
  intro s
  induction s with
  | nil => intro fuel h; cases fuel <;> rfl
  | cons c cs ih =>
    intro fuel h
    match fuel with
    | 0 => simp at h
    | fuel + 1 =>
      rw [pyReplaceAux]
      by_cases hc : c = p
      · subst hc
        simp [List.isPrefixOf, ih fuel (by simpa using h)]
      · simp [List.isPrefixOf, hc, ih fuel (by simp at h; omega)]
        exact fun hpc => absurd hpc.symm hc

/-- Single-character `pyReplace` acts independently on every character. -/
theorem pyReplace_single (p : Char) (rep : Str) (s : Str) :
    pyReplace [p] rep s = s.flatMap (fun c => if c = p then rep else [c]) :=
  pyReplaceAux_single p rep s s.length (Nat.le_refl _)

/-- `xml_escape` coincides with independent character-by-character
escaping: the chained replacements never rewrite each other's output. -/
theorem xml_escape_flatMap (s : Str) : xml_escape s = s.flatMap escChar := by
  simp only [xml_escape, pyReplace_single, List.flatMap_assoc]
  congr 1
  funext c
  by_cases h1 : c = '&'
  · subst h1; rfl
  by_cases h2 : c = '<'
  · subst h2; rfl
  by_cases h3 : c = '>'
  · subst h3; rfl
  by_cases h4 : c = '"'
  · subst h4; rfl
  by_cases h5 : c = '\''
  · subst h5; rfl
  simp [escChar, h1, h2, h3, h4, h5]

/-- When the cleaned date string does not split into exactly three
tokens, `parse_pt_date` returns `now` without any failure path. -/
theorem parse_pt_date_fallback (now : PyDateTime) (s : Str)
    (h : (pySplitWs (pyStrip ((pyStrip s).filter (· != '.')))).length ≠ 3) :
    parse_pt_date now s = .ok now := by
  unfold parse_pt_date
  dsimp only
  split
  · rename_i heq
    rw [heq] at h
    simp at h
  · rfl

/-- Splitting skips over a whitespace-free chunk, accumulating it. -/
theorem splitWsAux_nonspace (t : Str) (ht : ∀ c ∈ t, pyIsSpace c = false) :
    ∀ acc rest, splitWsAux (t ++ rest) acc = splitWsAux rest (t.reverse ++ acc) := by
  induction t with
  | nil => simp
  | cons c cs ih =>
    intro acc rest
    have hc : pyIsSpace c = false := ht c (by simp)
    simp only [List.cons_append, splitWsAux, hc, Bool.false_eq_true, if_false]
    rw [List.append_eq]
    rw [ih (fun x hx => ht x (by simp [hx]))]
    simp

/-- Splitting at a space with a nonempty accumulator emits the token. -/
theorem splitWsAux_space (rest : Str) (acc : Str) (ha : acc ≠ []) :
    splitWsAux (' ' :: rest) acc = acc.reverse :: splitWsAux rest [] := by
  simp [splitWsAux, ha, pyIsSpace]

/-- `str.split()` on three whitespace-free tokens separated by single
spaces. -/
theorem pySplitWs_three (a b c : Str)
    (hane : a ≠ []) (ha : ∀ x ∈ a, pyIsSpace x = false)
    (hbne : b ≠ []) (hb : ∀ x ∈ b, pyIsSpace x = false)
    (hcne : c ≠ []) (hc : ∀ x ∈ c, pyIsSpace x = false) :
    pySplitWs (a ++ ' ' :: (b ++ ' ' :: c)) = [a, b, c] := by
  unfold pySplitWs
  rw [splitWsAux_nonspace a ha]
  rw [List.append_nil]
  rw [splitWsAux_space _ _ (by simpa using hane)]
  rw [splitWsAux_nonspace b hb]
  rw [List.append_nil]
  rw [splitWsAux_space _ _ (by simpa using hbne)]
  rw [show c = c ++ [] from (List.append_nil c).symm]
  rw [splitWsAux_nonspace c (by simpa using hc)]
  simp [splitWsAux, hcne]

/-- `str.strip()` is the identity on a string with non-whitespace first
and last characters. -/
theorem pyStrip_sandwich (a : Char) (mid : Str) (b : Char)
    (ha : pyIsSpace a = false) (hb : pyIsSpace b = false) :
    pyStrip (a :: (mid ++ [b])) = a :: (mid ++ [b]) := by
  unfold pyStrip
  rw [List.dropWhile_cons_of_neg (by simp [ha])]
  rw [show (a :: (mid ++ [b])).reverse = b :: (mid.reverse ++ [a]) by simp]
  rw [List.dropWhile_cons_of_neg (by simp [hb])]
  simp

/-- Digit characters for values below ten are decimal digits. -/
theorem digitChar_isDigit (k : Nat) (h : k < 10) : (digitChar k).isDigit = true := by
  interval_cases k <;> decide

/-- Value of a digit character. -/
theorem digitChar_val (k : Nat) (h : k < 10) : (digitChar k).toNat - 48 = k := by
  interval_cases k <;> decide

/-- Every character of a rendered number is a decimal digit. -/
theorem natDigitsAux_digits : ∀ fuel n c, c ∈ natDigitsAux fuel n → c.isDigit = true := by
  intro fuel
  induction fuel with
  | zero => intro n c hc; simp [natDigitsAux] at hc
  | succ f ih =>
    intro n c hc
    by_cases h : n < 10
    · simp [natDigitsAux, h] at hc
      subst hc
      exact digitChar_isDigit n h
    · simp [natDigitsAux, h] at hc
      rcases hc with hc | hc
      · exact ih _ _ hc
      · subst hc
        exact digitChar_isDigit _ (Nat.mod_lt _ (by norm_num))

/-- Rendered numbers are nonempty. -/
theorem natDigits_ne_nil (n : Nat) : natDigits n ≠ [] := by
  unfold natDigits natDigitsAux
  by_cases h : n < 10 <;> simp [h]

/-- Every character of `natDigits n` is a decimal digit. -/
theorem natDigits_digits (n : Nat) : ∀ c ∈ natDigits n, c.isDigit = true :=
  fun c hc => natDigitsAux_digits _ _ c hc

/-- `digitsVal` over a final digit. -/
theorem digitsVal_append (xs : Str) (c : Char) :
    digitsVal (xs ++ [c]) = digitsVal xs * 10 + (c.toNat - 48) := by
  simp [digitsVal, List.foldl_append]

/-- The fuelled renderer is correct below its fuel bound. -/
theorem natDigitsAux_val : ∀ fuel n, n < 10 ^ fuel → digitsVal (natDigitsAux fuel n) = n := by
  intro fuel
  induction fuel with
  | zero => intro n h; interval_cases n; rfl
  | succ f ih =>
    intro n h
    by_cases hn : n < 10
    · simp [natDigitsAux, hn, digitsVal]
      have := digitChar_val n hn
      omega
    · rw [natDigitsAux, if_neg hn, digitsVal_append]
      have hdiv : n / 10 < 10 ^ f := by
        rw [Nat.div_lt_iff_lt_mul (by norm_num)]
        calc n < 10 ^ (f + 1) := h
        _ = 10 ^ f * 10 := by rw [Nat.pow_succ]
      rw [ih _ hdiv]
      have := digitChar_val (n % 10) (Nat.mod_lt _ (by norm_num))
      omega

/-- `str(n)` renders the value `n`. -/
theorem natDigits_val (n : Nat) : digitsVal (natDigits n) = n := by
  apply natDigitsAux_val
  calc n < 10 ^ n := Nat.lt_pow_self (by norm_num) n
  _ ≤ 10 ^ (n + 1) := Nat.pow_le_pow_right (by norm_num) (Nat.le_succ n)

/-- Whitespace characters are not digits. -/
theorem space_not_digit (c : Char) (h : pyIsSpace c = true) : c.isDigit = false := by
  simp [pyIsSpace] at h
  rcases h with ((((h | h) | h) | h) | h) | h <;> subst h <;> decide

/-- Digits are not whitespace. -/
theorem isDigit_not_space (c : Char) (h : c.isDigit = true) : pyIsSpace c = false := by
  cases hsp : pyIsSpace c
  · rfl
  · have h2 := space_not_digit c hsp
    rw [h] at h2
    exact Bool.noConfusion h2

/-- A digit differs from any non-digit character. -/
theorem isDigit_ne (c d : Char) (h : c.isDigit = true) (hd : d.isDigit = false) : c ≠ d :=
  fun he => by subst he; rw [h] at hd; cases hd

/-- `dropWhile` is the identity when no character satisfies the
predicate. -/
theorem dropWhile_eq_self_all (p : Char → Bool) (s : Str)
    (h : ∀ c ∈ s, p c = false) : s.dropWhile p = s := by
  cases s with
  | nil => rfl
  | cons c cs => exact List.dropWhile_cons_of_neg (by simp [h c (by simp)])

/-- `str.strip()` is the identity on whitespace-free strings. -/
theorem pyStrip_eq_self (s : Str) (h : ∀ c ∈ s, pyIsSpace c = false) : pyStrip s = s := by
  unfold pyStrip
  rw [dropWhile_eq_self_all _ _ h,
    dropWhile_eq_self_all _ _ (fun c hc => h c (by simpa using hc)),
    List.reverse_reverse]

/-- `int(str(n)) = n`. -/
theorem pyParseInt_natDigits (n : Nat) : pyParseInt (natDigits n) = some (n : Int) := by
  have hstrip : pyStrip (natDigits n) = natDigits n :=
    pyStrip_eq_self _ (fun c hc => isDigit_not_space c (natDigits_digits n c hc))
  unfold pyParseInt
  rw [hstrip]
  obtain ⟨c, cs, hcons⟩ : ∃ c cs, natDigits n = c :: cs := by
    cases h : natDigits n with
    | nil => exact absurd h (natDigits_ne_nil n)
    | cons c cs => exact ⟨c, cs, rfl⟩
  rw [hcons]
  dsimp only
  have hcd : c.isDigit = true := natDigits_digits n c (by rw [hcons]; simp)
  rw [if_neg (isDigit_ne c '+' hcd (by decide)), if_neg (isDigit_ne c '-' hcd (by decide))]
  rw [if_pos]
  · rw [← hcons, natDigits_val]
  · simp [isDigits]
    refine ⟨hcd, fun x hx => ?_⟩
    exact natDigits_digits n x (by rw [hcons]; simp [hx])

/-- The month table only yields values between 1 and 12 (the default is
1). -/
theorem ptMonthGet_range (s : Str) : 1 ≤ ptMonthGet s ∧ ptMonthGet s ≤ 12 := by
  unfold ptMonthGet
  cases hf : PT_MONTHS.find? (fun p => p.1 == s) with
  | none => simp
  | some pr =>
    have hmem : pr ∈ PT_MONTHS := List.mem_of_find?_eq_some hf
    have : ∀ q ∈ PT_MONTHS, 1 ≤ q.2 ∧ q.2 ≤ 12 := by decide
    simpa using this pr hmem

/-- `str.strip()` is the identity on a string that starts and ends with a
rendered number. -/
theorem pyStrip_digit_ends (d y : Nat) (mid : Str) :
    pyStrip (natDigits d ++ (mid ++ natDigits y)) =
      natDigits d ++ (mid ++ natDigits y) := by
  obtain ⟨c0, cs0, hd0⟩ : ∃ c0 cs0, natDigits d = c0 :: cs0 := by
    cases h : natDigits d with
    | nil => exact absurd h (natDigits_ne_nil d)
    | cons c0 cs0 => exact ⟨c0, cs0, rfl⟩
  obtain ⟨ys0, cy, hy0⟩ : ∃ ys0 cy, natDigits y = ys0 ++ [cy] := by
    rcases List.eq_nil_or_concat (natDigits y) with h | ⟨ys0, cy, h⟩
    · exact absurd h (natDigits_ne_nil y)
    · exact ⟨ys0, cy, by simpa [List.concat_eq_append] using h⟩
  rw [hd0, hy0]
  have hshape : (c0 :: cs0) ++ (mid ++ (ys0 ++ [cy])) =
      c0 :: ((cs0 ++ mid ++ ys0) ++ [cy]) := by simp
  rw [hshape, pyStrip_sandwich]
  · exact isDigit_not_space c0 (natDigits_digits d c0 (by rw [hd0]; simp))
  · exact isDigit_not_space cy (natDigits_digits y cy (by rw [hy0]; simp))

/-- `parse_pt_date` on a well-formed `"D mon. Y"` string: the result is
exactly that day, month (looked up case-insensitively, defaulting to 1)
and year, at noon, provided the triple denotes a real calendar date. -/
theorem parse_pt_date_exact (now : PyDateTime) (d y : Nat) (m : Str)
    (hm_ne : m ≠ []) (hm : ∀ x ∈ m, pyIsSpace x = false ∧ x ≠ '.')
    (hd1 : 1 ≤ d) (hd2 : d ≤ daysInMonth y (ptMonthGet (pyLower m)))
    (hy1 : 1 ≤ y) (hy2 : y ≤ 9999) :
    parse_pt_date now (natDigits d ++ ' ' :: (m ++ '.' :: ' ' :: natDigits y)) =
      .ok ⟨y, ptMonthGet (pyLower m), d, 12, 0, 0⟩ := by
  have hddig : ∀ c ∈ natDigits d, c.isDigit = true := natDigits_digits d
  have hydig : ∀ c ∈ natDigits y, c.isDigit = true := natDigits_digits y
  have hdns : ∀ c ∈ natDigits d, pyIsSpace c = false :=
    fun c hc => isDigit_not_space c (hddig c hc)
  have hyns : ∀ c ∈ natDigits y, pyIsSpace c = false :=
    fun c hc => isDigit_not_space c (hydig c hc)
  have hshape1 : natDigits d ++ ' ' :: (m ++ '.' :: ' ' :: natDigits y) =
      natDigits d ++ ((' ' :: m ++ ['.', ' ']) ++ natDigits y) := by simp
  have hstrip1 : pyStrip (natDigits d ++ ' ' :: (m ++ '.' :: ' ' :: natDigits y)) =
      natDigits d ++ ' ' :: (m ++ '.' :: ' ' :: natDigits y) := by
    rw [hshape1, pyStrip_digit_ends, ← hshape1]
  have hfilter : (natDigits d ++ ' ' :: (m ++ '.' :: ' ' :: natDigits y)).filter (· != '.') =
      natDigits d ++ ' ' :: (m ++ ' ' :: natDigits y) := by
    have h1 : (natDigits d).filter (· != '.') = natDigits d :=
      List.filter_eq_self.mpr (fun c hc => by
        simpa [bne_iff_ne] using isDigit_ne c '.' (hddig c hc) (by decide))
    have h2 : m.filter (· != '.') = m :=
      List.filter_eq_self.mpr (fun c hc => by simpa [bne_iff_ne] using (hm c hc).2)
    have h3 : (natDigits y).filter (· != '.') = natDigits y :=
      List.filter_eq_self.mpr (fun c hc => by
        simpa [bne_iff_ne] using isDigit_ne c '.' (hydig c hc) (by decide))
    rw [List.filter_append, h1, List.filter_cons_of_pos (by decide), List.filter_append,
      h2, List.filter_cons_of_neg (by simp), List.filter_cons_of_pos (by decide), h3]
  have hshape2 : natDigits d ++ ' ' :: (m ++ ' ' :: natDigits y) =
      natDigits d ++ ((' ' :: m ++ [' ']) ++ natDigits y) := by simp
  have hstrip2 : pyStrip (natDigits d ++ ' ' :: (m ++ ' ' :: natDigits y)) =
      natDigits d ++ ' ' :: (m ++ ' ' :: natDigits y) := by
    rw [hshape2, pyStrip_digit_ends, ← hshape2]
  have hsplit : pySplitWs (natDigits d ++ ' ' :: (m ++ ' ' :: natDigits y)) =
      [natDigits d, m, natDigits y] :=
    pySplitWs_three _ _ _ (natDigits_ne_nil d) hdns hm_ne (fun x hx => (hm x hx).1)
      (natDigits_ne_nil y) hyns
  unfold parse_pt_date
  dsimp only
  rw [hstrip1, hfilter, hstrip2, hsplit]
  dsimp only
  rw [pyParseInt_natDigits d]
  dsimp only
  rw [pyParseInt_natDigits y]
  dsimp only
  unfold mkDatetime
  rw [if_pos]
  · simp
  · refine ⟨by exact_mod_cast hy1, by exact_mod_cast hy2,
      (ptMonthGet_range _).1, (ptMonthGet_range _).2, by exact_mod_cast hd1, ?_,
      by norm_num, by norm_num, by norm_num⟩
    have : ((y : Int)).toNat = y := Int.toNat_natCast y
    rw [this]
    exact_mod_cast hd2

/-- The head-position match test coincides with the scanner's test. -/
theorem durMatchAt_zero (c : Char) (cs : Str) :
    durMatchAt (c :: cs) 0 =
      (c.isDigit &&
       "min".data.isPrefixOf (((c :: cs).dropWhile Char.isDigit).dropWhile pyIsSpace)) := by
  unfold durMatchAt
  cases h : c.isDigit <;>
    simp [List.takeWhile_cons, List.dropWhile_cons, h]

/-- Shifting the match test by one position steps over the head. -/
theorem durMatchAt_succ (c : Char) (cs : Str) (i : Nat) :
    durMatchAt (c :: cs) (i + 1) = durMatchAt cs i := by
  unfold durMatchAt
  rfl

/-- The left-to-right regex scanner returns exactly the leftmost
declaratively matching position's digit run. -/
theorem findDur_eq_find (s : Str) :
    findDur s = ((List.range s.length).find? (durMatchAt s)).map
      (fun i => digitsVal ((s.drop i).takeWhile Char.isDigit)) := by
  induction s with
  | nil => simp [findDur]
  | cons c cs ih =>
    rw [List.length_cons, List.range_succ_eq_map, List.find?_cons]
    cases hmatch : durMatchAt (c :: cs) 0 with
    | true =>
      rw [durMatchAt_zero] at hmatch
      rw [findDur, if_pos hmatch]
      simp
    | false =>
      rw [durMatchAt_zero] at hmatch
      rw [findDur, if_neg (by rw [hmatch]; simp)]
      rw [ih]
      rw [List.find?_map]
      have hcomp : durMatchAt (c :: cs) ∘ Nat.succ = durMatchAt cs := by
        funext i
        simp [durMatchAt_succ]
      rw [hcomp, Option.map_map]
      rfl

/-- `format_itunes_duration` on a decomposed second count. -/
theorem format_itunes_duration_decomp (h m s : Nat) (hm : m < 60) (hs : s < 60) :
    format_itunes_duration (h * 3600 + m * 60 + s) =
      (if h > 0 then pad2 h ++ ":".data ++ pad2 m ++ ":".data ++ pad2 s
       else pad2 m ++ ":".data ++ pad2 s) := by
  have h1 : (h * 3600 + m * 60 + s) / 3600 = h := by omega
  have h2 : ((h * 3600 + m * 60 + s) % 3600) / 60 = m := by omega
  have h3 : (h * 3600 + m * 60 + s) % 60 = s := by omega
  unfold format_itunes_duration
  rw [h1, h2, h3]

/-- A prefix of the left part extends to a prefix of an append. -/
theorem isPrefixOf_append_left (p a b : Str) (h : p.isPrefixOf a = true) :
    p.isPrefixOf (a ++ b) = true := by
  rw [List.isPrefixOf_iff_prefix] at h ⊢
  exact h.trans (List.prefix_append a b)

/-- A mismatch inside the literal head decides prefix tests on an
append, whatever follows. -/
theorem not_isPrefixOf_append (p a b : Str)
    (h1 : p.isPrefixOf a = false) (h2 : a.isPrefixOf p = false) :
    p.isPrefixOf (a ++ b) = false := by
  cases hres : p.isPrefixOf (a ++ b) with
  | false => rfl
  | true =>
    exfalso
    rw [List.isPrefixOf_iff_prefix] at hres
    rcases Nat.le_total p.length a.length with hle | hle
    · have h3 : p <+: a := List.prefix_of_prefix_length_le hres (List.prefix_append a b) hle
      rw [← List.isPrefixOf_iff_prefix] at h3
      rw [h3] at h1
      exact Bool.noConfusion h1
    · have h3 : a <+: p := List.prefix_of_prefix_length_le (List.prefix_append a b) hres hle
      rw [← List.isPrefixOf_iff_prefix] at h3
      rw [h3] at h2
      exact Bool.noConfusion h2

/-- Lists with different prefixes are different. -/
theorem ne_of_not_isPrefixOf (x y : Str) (h : y.isPrefixOf x = false) : x ≠ y := by
  intro he
  subst he
  have h2 : x.isPrefixOf x = true := by
    rw [List.isPrefixOf_iff_prefix]
  rw [h2] at h
  exact Bool.noConfusion h

/-- The enclosure lines of one rendered item: exactly one when
`audio_url` is set to a nonempty URL (Python's truthiness test), none
otherwise. -/
theorem itemLines_filter_enc (ep : Episode) :
    (itemLines ep).filter encTest =
      (match ep.audio_url with
       | some u =>
         if u = [] then []
         else ["      <enclosure url=\"".data ++ xml_escape u ++
               "\" length=\"0\" type=\"audio/mpeg\"/>".data]
       | none => []) := by
  have t1 : ∀ r, encTest ("      <title>".data ++ r) = false :=
    fun r => not_isPrefixOf_append _ _ _ (by decide) (by decide)
  have t2 : ∀ r, encTest ("      <link>".data ++ r) = false :=
    fun r => not_isPrefixOf_append _ _ _ (by decide) (by decide)
  have t3 : ∀ r, encTest ("      <guid isPermaLink=\"false\">rtp-panfletos-e".data ++ r) = false :=
    fun r => not_isPrefixOf_append _ _ _ (by decide) (by decide)
  have t4 : ∀ r, encTest ("      <pubDate>".data ++ r) = false :=
    fun r => not_isPrefixOf_append _ _ _ (by decide) (by decide)
  have t5 : ∀ r, encTest ("      <description>".data ++ r) = false :=
    fun r => not_isPrefixOf_append _ _ _ (by decide) (by decide)
  have t6 : ∀ r, encTest ("      <itunes:duration>".data ++ r) = false :=
    fun r => not_isPrefixOf_append _ _ _ (by decide) (by decide)
  have t7 : ∀ r, encTest ("      <itunes:author>".data ++ r) = false :=
    fun r => not_isPrefixOf_append _ _ _ (by decide) (by decide)
  have t8 : ∀ r, encTest ("      <itunes:summary>".data ++ r) = false :=
    fun r => not_isPrefixOf_append _ _ _ (by decide) (by decide)
  have tenc : ∀ r, encTest ("      <enclosure url=\"".data ++ r) = true :=
    fun r => isPrefixOf_append_left _ _ _ (by decide)
  unfold itemLines
  cases ep.audio_url with
  | none =>
    by_cases hdur : ep.duration > 0 <;>
      simp [hdur, List.filter_append, List.filter_cons, t1, t2, t3, t4, t5, t6, t7, t8, encTest]
  | some u =>
    by_cases hu : u = []
    · subst hu
      by_cases hdur : ep.duration > 0 <;>
        simp [hdur, List.filter_append, List.filter_cons, t1, t2, t3, t4, t5, t6, t7, t8, encTest]
    · by_cases hdur : ep.duration > 0 <;>
        simp [hu, hdur, List.filter_append, List.filter_cons, t1, t2, t3, t4, t5, t6, t7, t8, tenc, encTest]

/-- The duration lines of one rendered item: exactly one when the
duration is positive, none otherwise. -/
theorem itemLines_filter_dur (ep : Episode) :
    (itemLines ep).filter durTest =
      (if ep.duration > 0 then
        ["      <itunes:duration>".data ++ format_itunes_duration ep.duration ++
         "</itunes:duration>".data]
       else []) := by
  have t1 : ∀ r, durTest ("      <title>".data ++ r) = false :=
    fun r => not_isPrefixOf_append _ _ _ (by decide) (by decide)
  have t2 : ∀ r, durTest ("      <link>".data ++ r) = false :=
    fun r => not_isPrefixOf_append _ _ _ (by decide) (by decide)
  have t3 : ∀ r, durTest ("      <guid isPermaLink=\"false\">rtp-panfletos-e".data ++ r) = false :=
    fun r => not_isPrefixOf_append _ _ _ (by decide) (by decide)
  have t4 : ∀ r, durTest ("      <pubDate>".data ++ r) = false :=
    fun r => not_isPrefixOf_append _ _ _ (by decide) (by decide)
  have t5 : ∀ r, durTest ("      <description>".data ++ r) = false :=
    fun r => not_isPrefixOf_append _ _ _ (by decide) (by decide)
  have t6 : ∀ r, durTest ("      <enclosure url=\"".data ++ r) = false :=
    fun r => not_isPrefixOf_append _ _ _ (by decide) (by decide)
  have t7 : ∀ r, durTest ("      <itunes:author>".data ++ r) = false :=
    fun r => not_isPrefixOf_append _ _ _ (by decide) (by decide)
  have t8 : ∀ r, durTest ("      <itunes:summary>".data ++ r) = false :=
    fun r => not_isPrefixOf_append _ _ _ (by decide) (by decide)
  have tdur : ∀ r, durTest ("      <itunes:duration>".data ++ r) = true :=
    fun r => isPrefixOf_append_left _ _ _ (by decide)
  unfold itemLines
  cases ep.audio_url with
  | none =>
    by_cases hdur : ep.duration > 0 <;>
      simp [hdur, List.filter_append, List.filter_cons, t1, t2, t3, t4, t5, t7, t8, tdur, durTest]
  | some u =>
    by_cases hu : u = []
    · subst hu
      by_cases hdur : ep.duration > 0 <;>
        simp [hdur, List.filter_append, List.filter_cons, t1, t2, t3, t4, t5, t7, t8, tdur, durTest]
    · by_cases hdur : ep.duration > 0 <;>
        simp [hu, hdur, List.filter_append, List.filter_cons, t1, t2, t3, t4, t5, t6, t7, t8, tdur, durTest]

/-- The guid lines of one rendered item: exactly the one guid line. -/
theorem itemLines_filter_guid (ep : Episode) :
    (itemLines ep).filter guidTest =
      ["      <guid isPermaLink=\"false\">rtp-panfletos-e".data ++ ep.episode_id ++
       "</guid>".data] := by
  have t1 : ∀ r, guidTest ("      <title>".data ++ r) = false :=
    fun r => not_isPrefixOf_append _ _ _ (by decide) (by decide)
  have t2 : ∀ r, guidTest ("      <link>".data ++ r) = false :=
    fun r => not_isPrefixOf_append _ _ _ (by decide) (by decide)
  have t4 : ∀ r, guidTest ("      <pubDate>".data ++ r) = false :=
    fun r => not_isPrefixOf_append _ _ _ (by decide) (by decide)
  have t5 : ∀ r, guidTest ("      <description>".data ++ r) = false :=
    fun r => not_isPrefixOf_append _ _ _ (by decide) (by decide)
  have t6 : ∀ r, guidTest ("      <enclosure url=\"".data ++ r) = false :=
    fun r => not_isPrefixOf_append _ _ _ (by decide) (by decide)
  have t6b : ∀ r, guidTest ("      <itunes:duration>".data ++ r) = false :=
    fun r => not_isPrefixOf_append _ _ _ (by decide) (by decide)
  have t7 : ∀ r, guidTest ("      <itunes:author>".data ++ r) = false :=
    fun r => not_isPrefixOf_append _ _ _ (by decide) (by decide)
  have t8 : ∀ r, guidTest ("      <itunes:summary>".data ++ r) = false :=
    fun r => not_isPrefixOf_append _ _ _ (by decide) (by decide)
  have tg : ∀ r, guidTest ("      <guid isPermaLink=\"false\">rtp-panfletos-e".data ++ r) = true :=
    fun r => isPrefixOf_append_left _ _ _ (by decide)
  unfold itemLines
  cases ep.audio_url with
  | none =>
    by_cases hdur : ep.duration > 0 <;>
      simp [hdur, List.filter_append, List.filter_cons, t1, t2, t4, t5, t6b, t7, t8, tg, guidTest]
  | some u =>
    by_cases hu : u = []
    · subst hu
      by_cases hdur : ep.duration > 0 <;>
        simp [hdur, List.filter_append, List.filter_cons, t1, t2, t4, t5, t6b, t7, t8, tg, guidTest]
    · by_cases hdur : ep.duration > 0 <;>
        simp [hu, hdur, List.filter_append, List.filter_cons, t1, t2, t4, t5, t6, t6b, t7, t8, tg, guidTest]

/-- One rendered item contains exactly one `"    <item>"` line. -/
theorem itemLines_count_open (ep : Episode) :
    (itemLines ep).count "    <item>".data = 1 := by
  have mk : ∀ (lit : Str), ("    <item>".data.isPrefixOf lit = false) →
      (lit.isPrefixOf "    <item>".data = false) →
      ∀ r, ("    <item>".data == lit ++ r) = false := by
    intro lit h1 h2 r
    rw [beq_eq_false_iff_ne]
    exact Ne.symm (ne_of_not_isPrefixOf _ _ (not_isPrefixOf_append _ _ _ h1 h2))
  have t1 := mk "      <title>".data (by decide) (by decide)
  have t2 := mk "      <link>".data (by decide) (by decide)
  have t3 := mk "      <guid isPermaLink=\"false\">rtp-panfletos-e".data (by decide) (by decide)
  have t4 := mk "      <pubDate>".data (by decide) (by decide)
  have t5 := mk "      <description>".data (by decide) (by decide)
  have t6 := mk "      <enclosure url=\"".data (by decide) (by decide)
  have t6b := mk "      <itunes:duration>".data (by decide) (by decide)
  have t7 := mk "      <itunes:author>".data (by decide) (by decide)
  have t8 := mk "      <itunes:summary>".data (by decide) (by decide)
  unfold itemLines
  cases ep.audio_url with
  | none =>
    by_cases hdur : ep.duration > 0 <;>
      simp [hdur, List.count_append, List.count_cons, t1, t2, t3, t4, t5, t6b, t7, t8]
  | some u =>
    by_cases hu : u = []
    · subst hu
      by_cases hdur : ep.duration > 0 <;>
        simp [hdur, List.count_append, List.count_cons, t1, t2, t3, t4, t5, t6b, t7, t8]
    · by_cases hdur : ep.duration > 0 <;>
        simp [hu, hdur, List.count_append, List.count_cons, t1, t2, t3, t4, t5, t6, t6b, t7, t8]

/-- A string cannot equal an append whose literal head mismatches it. -/
theorem beq_append_false (a lit : Str) (h1 : a.isPrefixOf lit = false)
    (h2 : lit.isPrefixOf a = false) (r : Str) : (a == lit ++ r) = false := by
  rw [beq_eq_false_iff_ne]
  exact Ne.symm (ne_of_not_isPrefixOf _ _ (not_isPrefixOf_append _ _ _ h1 h2))

/-- The item blocks contribute one `"    <item>"` line per episode. -/
theorem count_flatMap_items (eps : List Episode) :
    (eps.flatMap itemLines).count "    <item>".data = eps.length := by
  induction eps with
  | nil => simp
  | cons e es ih =>
    rw [List.flatMap_cons, List.count_append, itemLines_count_open, ih]
    simp
    omega

/-- The full rendered line list contains exactly one `"    <item>"` line
per input episode: the channel header and footer contribute none. -/
theorem rssLines_count_open (now : PyDateTime) (eps : List Episode) :
    (rssLines now eps).count "    <item>".data = eps.length := by
  have c1 := beq_append_false "    <item>".data "    <title>".data (by decide) (by decide)
  have c2 := beq_append_false "    <item>".data "    <link>".data (by decide) (by decide)
  have c3 := beq_append_false "    <item>".data "    <description>".data (by decide) (by decide)
  have c4 := beq_append_false "    <item>".data "    <language>".data (by decide) (by decide)
  have c5 := beq_append_false "    <item>".data "    <lastBuildDate>".data (by decide) (by decide)
  have c6 := beq_append_false "    <item>".data "    <atom:link href=\"".data (by decide) (by decide)
  have c7 := beq_append_false "    <item>".data "    <itunes:author>".data (by decide) (by decide)
  have c8 := beq_append_false "    <item>".data "    <itunes:summary>".data (by decide) (by decide)
  have c9 := beq_append_false "    <item>".data "      <itunes:name>".data (by decide) (by decide)
  have c10 := beq_append_false "    <item>".data "    <itunes:category text=\"".data (by decide) (by decide)
  have c11 := beq_append_false "    <item>".data "      <url>".data (by decide) (by decide)
  have c12 := beq_append_false "    <item>".data "      <title>".data (by decide) (by decide)
  have c13 := beq_append_false "    <item>".data "      <link>".data (by decide) (by decide)
  have c14 := beq_append_false "    <item>".data "    <itunes:image href=\"".data (by decide) (by decide)
  unfold rssLines
  simp [List.count_append, List.count_cons,
    c1, c2, c3, c4, c5, c6, c7, c8, c9, c10, c11, c12, c13, c14]
  exact count_flatMap_items eps

/-- The guid lines of the full rendered line list are the items' guid
lines, in input order. -/
theorem rssLines_filter_guid (now : PyDateTime) (eps : List Episode) :
    (rssLines now eps).filter guidTest =
      eps.map (fun ep => "      <guid isPermaLink=\"false\">rtp-panfletos-e".data ++
        ep.episode_id ++ "</guid>".data) := by
  have items : (eps.flatMap itemLines).filter guidTest =
      eps.map (fun ep => "      <guid isPermaLink=\"false\">rtp-panfletos-e".data ++
        ep.episode_id ++ "</guid>".data) := by
    induction eps with
    | nil => simp
    | cons e es ih =>
      simp [List.flatMap_cons, List.filter_append, ih, itemLines_filter_guid]
  have mk : ∀ (lit : Str), ("      <guid ".data.isPrefixOf lit = false) →
      (lit.isPrefixOf "      <guid ".data = false) →
      ∀ r, guidTest (lit ++ r) = false :=
    fun lit h1 h2 r => not_isPrefixOf_append _ _ _ h1 h2
  have c1 := mk "    <title>".data (by decide) (by decide)
  have c2 := mk "    <link>".data (by decide) (by decide)
  have c3 := mk "    <description>".data (by decide) (by decide)
  have c4 := mk "    <language>".data (by decide) (by decide)
  have c5 := mk "    <lastBuildDate>".data (by decide) (by decide)
  have c6 := mk "    <atom:link href=\"".data (by decide) (by decide)
  have c7 := mk "    <itunes:author>".data (by decide) (by decide)
  have c8 := mk "    <itunes:summary>".data (by decide) (by decide)
  have c9 := mk "      <itunes:name>".data (by decide) (by decide)
  have c10 := mk "    <itunes:category text=\"".data (by decide) (by decide)
  have c11 := mk "      <url>".data (by decide) (by decide)
  have c12 := mk "      <title>".data (by decide) (by decide)
  have c13 := mk "      <link>".data (by decide) (by decide)
  have c14 := mk "    <itunes:image href=\"".data (by decide) (by decide)
  unfold rssLines
  simp [List.filter_append, List.filter_cons, items,
    c1, c2, c3, c4, c5, c6, c7, c8, c9, c10, c11, c12, c13, c14, guidTest]

/-- The full line list, re-expressed around its one non-closed channel
line. -/
theorem rssLines_decomp (now : PyDateTime) (eps : List Episode) :
    rssLines now eps =
      chanLinesA ++
        ("    <lastBuildDate>".data ++ format_rfc822 now ++ "</lastBuildDate>".data) ::
          (chanLinesB ++ (eps.flatMap itemLines ++ footerLines)) := rfl

/-- Scanning an append runs the two parts in sequence. -/
theorem xscan_append (a b : Str) (st : XSt) :
    xscan (a ++ b) st = (xscan a st).bind (xscan b) := by
  induction a generalizing st with
  | nil => simp [xscan]
  | cons c cs ih =>
    rw [List.cons_append, xscan, xscan]
    cases xstep st c with
    | none => simp
    | some st2 => simp [ih]

/-- Chaining scans through an intermediate state. -/
theorem xscan_seq (a b : Str) (st1 st2 st3 : XSt) (ha : xscan a st1 = some st2)
    (hb : xscan b st2 = some st3) : xscan (a ++ b) st1 = some st3 := by
  rw [xscan_append, ha]
  exact hb

/-- Safe characters leave character-data mode unchanged. -/
theorem xstep_text (c : Char) (stk : List Str) (h : textSafe c = true) :
    xstep ⟨.text, stk⟩ c = some ⟨.text, stk⟩ := by
  unfold textSafe at h
  simp only [Bool.not_eq_true', Bool.or_eq_false_iff, beq_eq_false_iff_ne] at h
  unfold xstep
  simp [h.1, h.2]

/-- Chaining scans across a newline in character data. -/
theorem xscan_seq_nl (a b : Str) (st1 st3 : XSt) (stk : List Str)
    (ha : xscan a st1 = some ⟨.text, stk⟩)
    (hb : xscan b ⟨.text, stk⟩ = some st3) : xscan (a ++ '\n' :: b) st1 = some st3 := by
  apply xscan_seq a ('\n' :: b) st1 ⟨.text, stk⟩ st3 ha
  rw [xscan, xstep_text '\n' stk (by decide)]
  exact hb

/-- A run of safe characters scans through unchanged. -/
theorem xscan_textsafe (s : Str) (stk : List Str) (h : ∀ c ∈ s, textSafe c = true) :
    xscan s ⟨.text, stk⟩ = some ⟨.text, stk⟩ := by
  induction s with
  | nil => rfl
  | cons c cs ih =>
    rw [xscan, xstep_text c stk (h c (by simp))]
    exact ih (fun x hx => h x (by simp [hx]))

/-- Scanning one escaped character from character data returns to
character data: entities step through the entity mode and are accepted,
plain characters are safe. -/
theorem xscan_escChar_text (c : Char) (stk : List Str) :
    xscan (escChar c) ⟨.text, stk⟩ = some ⟨.text, stk⟩ := by
  by_cases h1 : c = '&'
  · subst h1; rfl
  by_cases h2 : c = '<'
  · subst h2; rfl
  by_cases h3 : c = '>'
  · subst h3; rfl
  by_cases h4 : c = '"'
  · subst h4; rfl
  by_cases h5 : c = '\''
  · subst h5; rfl
  rw [show escChar c = [c] by simp [escChar, h1, h2, h3, h4, h5]]
  exact xscan_textsafe [c] stk (by
    intro x hx
    simp at hx
    subst hx
    simp [textSafe, h1, h2])

/-- Scanning all escaped text from character data stays in character
data. -/
theorem xscan_escaped_text (s : Str) (stk : List Str) :
    xscan (xml_escape s) ⟨.text, stk⟩ = some ⟨.text, stk⟩ := by
  rw [xml_escape_flatMap]
  induction s with
  | nil => rfl
  | cons c cs ih =>
    rw [List.flatMap_cons]
    exact xscan_seq _ _ _ _ _ (xscan_escChar_text c stk) ih

/-- Scanning one escaped character inside a quoted attribute value
stays inside the quoted value. -/
theorem xscan_escChar_attr (c : Char) (nm : Str) (stk : List Str) :
    xscan (escChar c) ⟨.attrs nm true, stk⟩ = some ⟨.attrs nm true, stk⟩ := by
  by_cases h1 : c = '&'
  · subst h1; rfl
  by_cases h2 : c = '<'
  · subst h2; rfl
  by_cases h3 : c = '>'
  · subst h3; rfl
  by_cases h4 : c = '"'
  · subst h4; rfl
  by_cases h5 : c = '\''
  · subst h5; rfl
  rw [show escChar c = [c] by simp [escChar, h1, h2, h3, h4, h5]]
  rw [xscan, show xstep ⟨.attrs nm true, stk⟩ c = some ⟨.attrs nm true, stk⟩ by
    unfold xstep; simp [h1, h2, h4]]
  rfl

/-- Scanning all escaped text inside a quoted attribute value stays
there. -/
theorem xscan_escaped_attr (s : Str) (nm : Str) (stk : List Str) :
    xscan (xml_escape s) ⟨.attrs nm true, stk⟩ = some ⟨.attrs nm true, stk⟩ := by
  rw [xml_escape_flatMap]
  induction s with
  | nil => rfl
  | cons c cs ih =>
    rw [List.flatMap_cons]
    exact xscan_seq _ _ _ _ _ (xscan_escChar_attr c nm stk) ih

/-- Decimal digits are scanner-safe. -/
theorem isDigit_textSafe (c : Char) (h : c.isDigit = true) : textSafe c = true := by
  unfold textSafe
  have h1 : (c == '<') = false := by
    rw [beq_eq_false_iff_ne]
    exact isDigit_ne c '<' h (by decide)
  have h2 : (c == '&') = false := by
    rw [beq_eq_false_iff_ne]
    exact isDigit_ne c '&' h (by decide)
  rw [h1, h2]
  rfl

/-- `pad2` renders only digits and is scanner-safe. -/
theorem pad2_textSafe (n : Nat) : ∀ c ∈ pad2 n, textSafe c = true := by
  intro c hc
  unfold pad2 at hc
  by_cases h : n < 10
  · rw [if_pos h] at hc
    rcases List.mem_cons.mp hc with hc | hc
    · subst hc; decide
    · exact isDigit_textSafe c (natDigits_digits n c hc)
  · rw [if_neg h] at hc
    exact isDigit_textSafe c (natDigits_digits n c hc)

/-- Every weekday abbreviation is scanner-safe whatever the index. -/
theorem rfcDays_textSafe (i : Nat) : ∀ c ∈ rfcDays.getD i [], textSafe c = true := by
  have hall : ∀ l ∈ rfcDays, ∀ c ∈ l, textSafe c = true := by decide
  by_cases h : i < rfcDays.length
  · intro c hc
    rw [List.getD_eq_getElem?_getD, List.getElem?_eq_getElem h] at hc
    exact hall _ (List.getElem_mem h) c hc
  · intro c hc
    rw [List.getD_eq_getElem?_getD, List.getElem?_eq_none (by omega)] at hc
    simp at hc

/-- Every month abbreviation is scanner-safe whatever the index. -/
theorem rfcMonths_textSafe (i : Nat) : ∀ c ∈ rfcMonths.getD i [], textSafe c = true := by
  have hall : ∀ l ∈ rfcMonths, ∀ c ∈ l, textSafe c = true := by decide
  by_cases h : i < rfcMonths.length
  · intro c hc
    rw [List.getD_eq_getElem?_getD, List.getElem?_eq_getElem h] at hc
    exact hall _ (List.getElem_mem h) c hc
  · intro c hc
    rw [List.getD_eq_getElem?_getD, List.getElem?_eq_none (by omega)] at hc
    simp at hc

/-- An RFC 822 timestamp contains no markup characters. -/
theorem format_rfc822_textSafe (dt : PyDateTime) :
    ∀ c ∈ format_rfc822 dt, textSafe c = true := by
  unfold format_rfc822
  simp only [List.forall_mem_append]
  exact ⟨⟨⟨⟨⟨⟨⟨⟨⟨⟨⟨⟨⟨rfcDays_textSafe _, by decide⟩, pad2_textSafe _⟩, by decide⟩,
    rfcMonths_textSafe _⟩, by decide⟩,
    fun c h => isDigit_textSafe c (natDigits_digits _ c h)⟩, by decide⟩,
    pad2_textSafe _⟩, by decide⟩, pad2_textSafe _⟩, by decide⟩, pad2_textSafe _⟩,
    by decide⟩

/-- An iTunes duration string contains no markup characters. -/
theorem format_itunes_textSafe (n : Nat) :
    ∀ c ∈ format_itunes_duration n, textSafe c = true := by
  unfold format_itunes_duration
  by_cases h : n / 3600 > 0
  · rw [if_pos h]
    simp only [List.forall_mem_append]
    exact ⟨⟨⟨⟨pad2_textSafe _, by decide⟩, pad2_textSafe _⟩, by decide⟩, pad2_textSafe _⟩
  · rw [if_neg h]
    simp only [List.forall_mem_append]
    exact ⟨⟨pad2_textSafe _, by decide⟩, pad2_textSafe _⟩

/-- `joinNL` over a cons with nonempty tail. -/
theorem joinNL_cons (x : Str) (ys : List Str) (hy : ys ≠ []) :
    joinNL (x :: ys) = x ++ '\n' :: joinNL ys := by
  cases ys with
  | nil => cases hy rfl
  | cons b bs => rfl

/-- `joinNL` over an append of nonempty line lists. -/
theorem joinNL_append (xs ys : List Str) (hx : xs ≠ []) (hy : ys ≠ []) :
    joinNL (xs ++ ys) = joinNL xs ++ '\n' :: joinNL ys := by
  induction xs with
  | nil => cases hx rfl
  | cons a as ih =>
    cases as with
    | nil =>
      cases ys with
      | nil => cases hy rfl
      | cons b bs => rfl
    | cons a2 as2 =>
      rw [List.cons_append, joinNL_cons _ _ (by simp), joinNL_cons _ _ (by simp),
        ih (by simp)]
      simp

/-- Lines that each scan from a character-data state back to itself
join into a block that does the same. -/
theorem xscan_joinNL_inv (ls : List Str) (stk : List Str)
    (h : ∀ l ∈ ls, xscan l ⟨.text, stk⟩ = some ⟨.text, stk⟩) :
    xscan (joinNL ls) ⟨.text, stk⟩ = some ⟨.text, stk⟩ := by
  induction ls with
  | nil => rfl
  | cons a as ih =>
    cases as with
    | nil => exact h a (by simp)
    | cons a2 as2 =>
      rw [joinNL_cons _ _ (by simp)]
      exact xscan_seq_nl _ _ _ _ stk (h a (by simp))
        (ih (fun l hl => h l (by simp [hl])))

/-- The title line scans back to item character data. -/
theorem xline_title (t : Str) :
    xscan ("      <title>".data ++ (xml_escape t ++ "</title>".data))
      ⟨.text, stkItem⟩ = some ⟨.text, stkItem⟩ :=
  xscan_seq _ _ _ ⟨.text, "title".data :: stkItem⟩ _ (by decide)
    (xscan_seq _ _ _ ⟨.text, "title".data :: stkItem⟩ _ (xscan_escaped_text t _) (by decide))

/-- The link line scans back to item character data when the URL
contains no markup characters. -/
theorem xline_link (u : Str) (hu : ∀ c ∈ u, textSafe c = true) :
    xscan ("      <link>".data ++ (u ++ "</link>".data))
      ⟨.text, stkItem⟩ = some ⟨.text, stkItem⟩ :=
  xscan_seq _ _ _ ⟨.text, "link".data :: stkItem⟩ _ (by decide)
    (xscan_seq _ _ _ ⟨.text, "link".data :: stkItem⟩ _ (xscan_textsafe u _ hu) (by decide))

/-- The guid line scans back to item character data when the episode id
contains no markup characters. -/
theorem xline_guid (i : Str) (hi : ∀ c ∈ i, textSafe c = true) :
    xscan ("      <guid isPermaLink=\"false\">rtp-panfletos-e".data ++ (i ++ "</guid>".data))
      ⟨.text, stkItem⟩ = some ⟨.text, stkItem⟩ :=
  xscan_seq _ _ _ ⟨.text, "guid".data :: stkItem⟩ _ (by decide)
    (xscan_seq _ _ _ ⟨.text, "guid".data :: stkItem⟩ _ (xscan_textsafe i _ hi) (by decide))

/-- The pubDate line scans back to item character data. -/
theorem xline_pubdate (dt : PyDateTime) :
    xscan ("      <pubDate>".data ++ (format_rfc822 dt ++ "</pubDate>".data))
      ⟨.text, stkItem⟩ = some ⟨.text, stkItem⟩ :=
  xscan_seq _ _ _ ⟨.text, "pubDate".data :: stkItem⟩ _ (by decide)
    (xscan_seq _ _ _ ⟨.text, "pubDate".data :: stkItem⟩ _
      (xscan_textsafe _ _ (format_rfc822_textSafe dt)) (by decide))

/-- The description line scans back to item character data. -/
theorem xline_desc (t : Str) :
    xscan ("      <description>".data ++ (xml_escape t ++ (" - ".data ++
        (xml_escape PROGRAM_TITLE ++ (" com ".data ++ (xml_escape PROGRAM_AUTHOR ++
        (" na ".data ++ (CHANNEL ++ ".</description>".data))))))))
      ⟨.text, stkItem⟩ = some ⟨.text, stkItem⟩ :=
  xscan_seq _ _ _ ⟨.text, "description".data :: stkItem⟩ _ (by decide)
    (xscan_seq _ _ _ ⟨.text, "description".data :: stkItem⟩ _ (xscan_escaped_text t _)
      (by decide))

/-- The enclosure line scans back to item character data whatever the
audio URL contains, because the URL is escaped inside the quoted
attribute. -/
theorem xline_enc (u : Str) :
    xscan ("      <enclosure url=\"".data ++ (xml_escape u ++
        "\" length=\"0\" type=\"audio/mpeg\"/>".data))
      ⟨.text, stkItem⟩ = some ⟨.text, stkItem⟩ :=
  xscan_seq _ _ _ ⟨.attrs "enclosure".data true, stkItem⟩ _ (by decide)
    (xscan_seq _ _ _ ⟨.attrs "enclosure".data true, stkItem⟩ _ (xscan_escaped_attr u _ _)
      (by decide))

/-- The iTunes duration line scans back to item character data. -/
theorem xline_dur (n : Nat) :
    xscan ("      <itunes:duration>".data ++ (format_itunes_duration n ++
        "</itunes:duration>".data))
      ⟨.text, stkItem⟩ = some ⟨.text, stkItem⟩ :=
  xscan_seq _ _ _ ⟨.text, "itunes:duration".data :: stkItem⟩ _ (by decide)
    (xscan_seq _ _ _ ⟨.text, "itunes:duration".data :: stkItem⟩ _
      (xscan_textsafe _ _ (format_itunes_textSafe n)) (by decide))

/-- The iTunes summary line scans back to item character data. -/
theorem xline_summary (t : Str) :
    xscan ("      <itunes:summary>".data ++ (xml_escape t ++
        " - Panfletos: música-política, canções-poder, criatividade-resistência.</itunes:summary>".data))
      ⟨.text, stkItem⟩ = some ⟨.text, stkItem⟩ :=
  xscan_seq _ _ _ ⟨.text, "itunes:summary".data :: stkItem⟩ _ (by decide)
    (xscan_seq _ _ _ ⟨.text, "itunes:summary".data :: stkItem⟩ _ (xscan_escaped_text t _)
      (by decide))

/-- One rendered item block scans from channel character data back to
channel character data, provided its URL and episode id carry no markup
characters (the other fields are escaped or derived). -/
theorem xscan_item (ep : Episode) (hu : ∀ c ∈ ep.url, textSafe c = true)
    (hi : ∀ c ∈ ep.episode_id, textSafe c = true) :
    xscan (joinNL (itemLines ep)) ⟨.text, stkChan⟩ = some ⟨.text, stkChan⟩ := by
  have hshape : itemLines ep =
      "    <item>".data ::
        ((["      <title>".data ++ (xml_escape ep.title ++ "</title>".data),
           "      <link>".data ++ (ep.url ++ "</link>".data),
           "      <guid isPermaLink=\"false\">rtp-panfletos-e".data ++
             (ep.episode_id ++ "</guid>".data),
           "      <pubDate>".data ++ (format_rfc822 ep.date ++ "</pubDate>".data),
           "      <description>".data ++ (xml_escape ep.title ++ (" - ".data ++
             (xml_escape PROGRAM_TITLE ++ (" com ".data ++ (xml_escape PROGRAM_AUTHOR ++
             (" na ".data ++ (CHANNEL ++ ".</description>".data)))))))] ++
          ((match ep.audio_url with
            | some u =>
              if u = [] then []
              else ["      <enclosure url=\"".data ++ (xml_escape u ++
                    "\" length=\"0\" type=\"audio/mpeg\"/>".data)]
            | none => []) ++
           ((if ep.duration > 0 then
               ["      <itunes:duration>".data ++ (format_itunes_duration ep.duration ++
                "</itunes:duration>".data)]
             else []) ++
            ["      <itunes:author>".data ++ xml_escape PROGRAM_AUTHOR ++
               "</itunes:author>".data,
             "      <itunes:summary>".data ++ (xml_escape ep.title ++
               " - Panfletos: música-política, canções-poder, criatividade-resistência.</itunes:summary>".data)]))) ++
         ["    </item>".data]) := by
    simp [itemLines]
  rw [hshape, joinNL_cons _ _ (by simp)]
  apply xscan_seq_nl _ _ _ _ stkItem (by decide)
  rw [joinNL_append _ _ (by simp) (by simp)]
  apply xscan_seq_nl _ _ _ _ stkItem _ (by decide)
  apply xscan_joinNL_inv
  intro l hl
  simp only [List.mem_append] at hl
  rcases hl with h | h | h | h
  · simp only [List.mem_cons, List.not_mem_nil, or_false] at h
    rcases h with rfl | rfl | rfl | rfl | rfl
    · exact xline_title _
    · exact xline_link _ hu
    · exact xline_guid _ hi
    · exact xline_pubdate _
    · exact xline_desc _
  · cases haud : ep.audio_url with
    | none => rw [haud] at h; simp at h
    | some u =>
      rw [haud] at h
      by_cases hu0 : u = []
      · simp [hu0] at h
      · simp only [hu0, if_false, List.mem_singleton] at h
        subst h
        exact xline_enc u
  · by_cases hdur : ep.duration > 0
    · simp only [hdur, if_true, List.mem_singleton] at h
      subst h
      exact xline_dur _
    · simp [hdur] at h
  · simp only [List.mem_cons, List.not_mem_nil, or_false] at h
    rcases h with rfl | rfl
    · decide
    · exact xline_summary _

/-- The item blocks followed by the footer scan from channel character
data to the final empty-stack state. -/
theorem xscan_items_footer (eps : List Episode)
    (h : ∀ ep ∈ eps, (∀ c ∈ ep.url, textSafe c = true) ∧
      (∀ c ∈ ep.episode_id, textSafe c = true)) :
    xscan (joinNL (eps.flatMap itemLines ++ footerLines)) ⟨.text, stkChan⟩ =
      some ⟨.text, []⟩ := by
  induction eps with
  | nil => decide
  | cons e es ih =>
    rw [List.flatMap_cons, List.append_assoc,
      joinNL_append _ _ (by simp [itemLines]) (by simp [footerLines])]
    exact xscan_seq_nl _ _ _ _ stkChan
      (xscan_item e (h e (by simp)).1 (h e (by simp)).2)
      (ih (fun x hx => h x (by simp [hx])))

set_option maxHeartbeats 4000000 in
/-- `generate_rss` produces a well-formed document whenever the raw
inserted fields (each record's URL and episode id) carry no markup
characters; every other text field passes through `xml_escape`. -/
theorem generate_rss_wellFormed (now : PyDateTime) (eps : List Episode)
    (h : ∀ ep ∈ eps, (∀ c ∈ ep.url, textSafe c = true) ∧
      (∀ c ∈ ep.episode_id, textSafe c = true)) :
    wellFormedXml (generate_rss now eps) = true := by
  unfold wellFormedXml generate_rss
  rw [rssLines_decomp]
  rw [joinNL_append chanLinesA _ (by decide) (by simp)]
  rw [joinNL_cons _ _ (by simp [chanLinesB])]
  rw [joinNL_append chanLinesB _ (by decide) (by simp [footerLines])]
  simp only [beq_iff_eq]
  apply xscan_seq_nl _ _ _ _ stkChan (by decide)
  have hbl : xscan ("    <lastBuildDate>".data ++ format_rfc822 now ++
      "</lastBuildDate>".data) ⟨.text, stkChan⟩ = some ⟨.text, stkChan⟩ := by
    rw [List.append_assoc]
    exact xscan_seq _ _ _ ⟨.text, "lastBuildDate".data :: stkChan⟩ _ (by decide)
      (xscan_seq _ _ _ ⟨.text, "lastBuildDate".data :: stkChan⟩ _
        (xscan_textsafe _ _ (format_rfc822_textSafe now)) (by decide))
  apply xscan_seq_nl _ _ _ _ stkChan hbl
  apply xscan_seq_nl _ _ _ _ stkChan (by decide)
  exact xscan_items_footer eps h

/-- C1 (amended): whenever the cleaned date string does not split into
exactly three whitespace-separated tokens, `parse_pt_date` returns the
current time (`now`) and cannot raise; three-token inputs, however, may
raise (see the counterexample), so the original "never raises" reading
does not hold. -/
theorem parse_pt_date_nonthree_returns_now (now : PyDateTime) (s : Str)
    (h : (pySplitWs (pyStrip ((pyStrip s).filter (· != '.')))).length ≠ 3) :
    parse_pt_date now s = .ok now :=
  parse_pt_date_fallback now s h

/-- Witness for C1: `"2026"` cleans to a single token and parses to the
current time. -/
theorem parse_pt_date_nonthree_returns_now_witness :
    parse_pt_date testNow "2026".data = .ok testNow :=
  parse_pt_date_nonthree_returns_now testNow "2026".data (by decide)

/-- C1 (counterexample): the malformed three-token fragment `"a b c"`
makes `parse_pt_date` raise `ValueError` (from `int("a")`) instead of
yielding a timestamp, so date parsing does not degrade gracefully on
every malformed fragment. -/
theorem parse_pt_date_malformed_raises :
    parse_pt_date testNow "a b c".data = .error () := rfl

/-- C3: for every well-formed `"D mon. Y"` date string (digits, a
period-free whitespace-free month token, digits) denoting a real
calendar date, `parse_pt_date` returns exactly that day, month and year
at 12:00:00, where the month abbreviation is looked up
case-insensitively in the fixed table; and an unrecognized abbreviation
defaults to month 1. -/
theorem parse_pt_date_well_formed_exact :
    (∀ (now : PyDateTime) (d y : Nat) (m : Str),
      m ≠ [] → (∀ x ∈ m, pyIsSpace x = false ∧ x ≠ '.') →
      1 ≤ d → d ≤ daysInMonth y (ptMonthGet (pyLower m)) →
      1 ≤ y → y ≤ 9999 →
      parse_pt_date now (natDigits d ++ ' ' :: (m ++ '.' :: ' ' :: natDigits y)) =
        .ok ⟨y, ptMonthGet (pyLower m), d, 12, 0, 0⟩) ∧
    ptMonthGet (pyLower "XYZ".data) = 1 :=
  ⟨fun now d y m h1 h2 h3 h4 h5 h6 => parse_pt_date_exact now d y m h1 h2 h3 h4 h5 h6,
   by decide⟩

/-- Witness for C3: `"11 fev. 2026"` parses to 2026-02-11T12:00:00. -/
theorem parse_pt_date_well_formed_exact_witness :
    parse_pt_date testNow "11 fev. 2026".data = .ok ⟨2026, 2, 11, 12, 0, 0⟩ := by
  have h := parse_pt_date_well_formed_exact.1 testNow 11 2026 "fev".data
    (by decide) (by decide) (by decide) (by decide) (by decide) (by decide)
  rw [show ("11 fev. 2026".data : Str) =
    natDigits 11 ++ ' ' :: ("fev".data ++ '.' :: ' ' :: natDigits 2026) by decide]
  rw [h]
  rfl

/-- C5: `xml_escape` with its ampersand-first replacement order equals
independent character-by-character escaping of the five reserved XML
characters — the ampersand escape never re-escapes later substitutions
and no character is escaped twice; e.g.
`xml_escape("A & B < C") = "A &amp; B &lt; C"`. -/
theorem xml_escape_charwise :
    (∀ s : Str, xml_escape s = s.flatMap escChar) ∧
    xml_escape "A & B < C".data = "A &amp; B &lt; C".data :=
  ⟨xml_escape_flatMap, by decide⟩

/-- C2 (amended): for every episode list whose raw-inserted fields
(each record's URL and episode id) contain no `<` or `&`, `generate_rss`
totally produces a well-formed XML document with a channel block; the
empty episode list yields a document with zero `<item>` lines.  Without
that restriction the claim fails (see the counterexample): the renderer
inserts those two fields unescaped. -/
theorem generate_rss_wellformed_of_safe_fields (now : PyDateTime) (eps : List Episode)
    (h : ∀ ep ∈ eps, (∀ c ∈ ep.url, textSafe c = true) ∧
      (∀ c ∈ ep.episode_id, textSafe c = true)) :
    wellFormedXml (generate_rss now eps) = true ∧
    "  <channel>".data ∈ rssLines now eps ∧
    (rssLines now []).count "    <item>".data = 0 ∧
    wellFormedXml (generate_rss now []) = true := by
  refine ⟨generate_rss_wellFormed now eps h, ?_, ?_, ?_⟩
  · simp [rssLines]
  · rw [rssLines_count_open]
    rfl
  · exact generate_rss_wellFormed now [] (by simp)

/-- Witness for C2: the fixed fallback list satisfies the field
restriction and renders to a well-formed document. -/
theorem generate_rss_wellformed_of_safe_fields_witness :
    wellFormedXml (generate_rss testNow hardcodedEpisodes) = true ∧
    "  <channel>".data ∈ rssLines testNow hardcodedEpisodes ∧
    (rssLines testNow []).count "    <item>".data = 0 ∧
    wellFormedXml (generate_rss testNow []) = true :=
  generate_rss_wellformed_of_safe_fields testNow hardcodedEpisodes (by decide)

/-- C2 (counterexample): an episode whose URL contains a raw ampersand
(a perfectly valid URL, hence structurally valid input) renders to a
document that is not well-formed XML, because the item `<link>` content
is inserted without escaping. -/
theorem generate_rss_amp_url_ill_formed :
    wellFormedXml (generate_rss testNow [ampEpisode]) = false := by decide

/-- C4 (amended): the hardcoded fallback list carries pairwise-distinct
episode ids; the scraper, however, does not enforce uniqueness (see the
counterexample). -/
theorem hardcoded_episode_ids_nodup :
    (hardcodedEpisodes.map (fun e => e.episode_id)).Nodup := by decide

/-- C4 (counterexample): markup in which the same episode anchor occurs
twice scrapes to two records with the same episode id, so the scraped
record sequence does not have pairwise-distinct ids. -/
theorem scrape_duplicate_ids :
    scrapedIds (scrapeFromLinks testNow [dupLink, dupLink]) =
      ["908229".data, "908229".data] ∧
    decide (["908229".data, "908229".data] : List Str).Nodup = false :=
  ⟨rfl, by decide⟩

/-- C6 (amended): an item carries exactly one `<enclosure>` line — with
the xml-escaped audio URL, length fixed to 0 and type fixed to
`audio/mpeg` — precisely when `audio_url` is set to a nonempty string;
when it is unset (or set to the empty string, which Python's truthiness
test conflates with unset, see the counterexample) the item carries no
enclosure line. -/
theorem enclosure_emission (ep : Episode) :
    (itemLines ep).filter encTest =
      (match ep.audio_url with
       | some u =>
         if u = [] then []
         else ["      <enclosure url=\"".data ++ xml_escape u ++
               "\" length=\"0\" type=\"audio/mpeg\"/>".data]
       | none => []) :=
  itemLines_filter_enc ep

/-- C6 (counterexample): an episode whose `audio_url` is set to `""`
renders with no `<enclosure>` element, although the claim as stated
promises exactly one enclosure for every set `audio_url`. -/
theorem enclosure_empty_audio_url :
    emptyAudioEpisode.audio_url = some [] ∧
    (itemLines emptyAudioEpisode).filter encTest = [] :=
  ⟨rfl, by decide⟩

/-- C7: `parse_duration` returns sixty times the integer found by the
leftmost case-insensitive match of digits, optional whitespace and the
literal `min` (formalised by the position-by-position `durSpec`), and 0
when no position matches; e.g. `"7min"` yields 420, `"27 min"` yields
1620, and a string without such a match yields 0. -/
theorem parse_duration_spec :
    (∀ s : Str, parse_duration s = durSpec (pyLower (pyStrip s))) ∧
    parse_duration "7min".data = 420 ∧
    parse_duration "27 min".data = 1620 ∧
    parse_duration "Panfletos".data = 0 := by
  refine ⟨fun s => ?_, by decide, by decide, by decide⟩
  unfold parse_duration durSpec
  rw [findDur_eq_find]
  cases (List.range (pyLower (pyStrip s)).length).find? (durMatchAt (pyLower (pyStrip s))) with
  | none => rfl
  | some i => rfl

/-- C8: `format_itunes_duration` renders a seconds count decomposed as
`h` hours, `m` minutes and `s` seconds as zero-padded fields with the
hour field omitted exactly when it is zero; 420 renders as `"07:00"`
and 3720 as `"01:02:00"`; and a rendered item carries the
`<itunes:duration>` line exactly when its duration is positive. -/
theorem itunes_duration_spec :
    (∀ h m s : Nat, m < 60 → s < 60 →
      format_itunes_duration (h * 3600 + m * 60 + s) =
        (if h > 0 then pad2 h ++ ":".data ++ pad2 m ++ ":".data ++ pad2 s
         else pad2 m ++ ":".data ++ pad2 s)) ∧
    format_itunes_duration 420 = "07:00".data ∧
    format_itunes_duration 3720 = "01:02:00".data ∧
    (∀ ep : Episode, (itemLines ep).filter durTest =
      (if ep.duration > 0 then
        ["      <itunes:duration>".data ++ format_itunes_duration ep.duration ++
         "</itunes:duration>".data]
       else [])) :=
  ⟨format_itunes_duration_decomp, by decide, by decide, itemLines_filter_dur⟩

/-- Witness for C8: 3720 seconds decompose as 1 hour, 2 minutes, 0
seconds, and render with the hour field present. -/
theorem itunes_duration_spec_witness :
    format_itunes_duration (1 * 3600 + 2 * 60 + 0) =
      (if 1 > 0 then pad2 1 ++ ":".data ++ pad2 2 ++ ":".data ++ pad2 0
       else pad2 2 ++ ":".data ++ pad2 0) :=
  itunes_duration_spec.1 1 2 0 (by decide) (by decide)

/-- C9: `generate_rss` emits exactly one `"    <item>"` line per record
and the guid lines are exactly one per record, in input order, each
equal to the fixed prefix `rtp-panfletos-e` plus the record's episode
id and marked `isPermaLink="false"`; the hardcoded feed renders the
fixed 12-entry list through the same renderer, and every guid text is
nonempty. -/
theorem items_order_and_guids (now : PyDateTime) (eps : List Episode) :
    (rssLines now eps).count "    <item>".data = eps.length ∧
    (rssLines now eps).filter guidTest =
      eps.map (fun ep => "      <guid isPermaLink=\"false\">rtp-panfletos-e".data ++
        ep.episode_id ++ "</guid>".data) ∧
    generate_feed_from_hardcoded_data now = generate_rss now hardcodedEpisodes ∧
    hardcodedEpisodes.length = 12 ∧
    (∀ e : Episode, 0 < ("rtp-panfletos-e".data ++ e.episode_id).length) := by
  refine ⟨rssLines_count_open now eps, rssLines_filter_guid now eps, rfl, rfl, ?_⟩
  intro e
  simp

/-- C10: the channel `<link>`, the `atom:link` href, the `<image>` url
and link, the `itunes:image` href and every item's `<link>` content are
the raw configured or scraped URL strings, inserted without
`xml_escape`; among URL fields only the enclosure url attribute is
escaped.  The last conjunct separates the two: for a URL containing
`&`, the raw link line occurs in the item and the escaped variant does
not. -/
theorem raw_url_insertion :
    (∀ (now : PyDateTime) (eps : List Episode),
      ("    <link>".data ++ PROGRAM_URL ++ "</link>".data) ∈ rssLines now eps ∧
      ("    <atom:link href=\"".data ++ FEED_SELF_URL ++
        "\" rel=\"self\" type=\"application/rss+xml\"/>".data) ∈ rssLines now eps ∧
      ("      <url>".data ++ PROGRAM_IMAGE ++ "</url>".data) ∈ rssLines now eps ∧
      ("      <link>".data ++ PROGRAM_URL ++ "</link>".data) ∈ rssLines now eps ∧
      ("    <itunes:image href=\"".data ++ PROGRAM_IMAGE ++ "\"/>".data) ∈ rssLines now eps) ∧
    (∀ ep : Episode, ("      <link>".data ++ ep.url ++ "</link>".data) ∈ itemLines ep) ∧
    (∀ (ep : Episode) (u : Str), ep.audio_url = some u → u ≠ [] →
      ("      <enclosure url=\"".data ++ xml_escape u ++
        "\" length=\"0\" type=\"audio/mpeg\"/>".data) ∈ itemLines ep) ∧
    ("      <link>".data ++ ampEpisode.url ++ "</link>".data) ∈ itemLines ampEpisode ∧
    ("      <link>".data ++ xml_escape ampEpisode.url ++ "</link>".data) ∉ itemLines ampEpisode := by
  refine ⟨fun now eps => ⟨?_, ?_, ?_, ?_, ?_⟩, fun ep => ?_, fun ep u hau hu0 => ?_, ?_, ?_⟩
  · simp [rssLines]
  · simp [rssLines]
  · simp [rssLines]
  · simp [rssLines]
  · simp [rssLines]
  · simp [itemLines]
  · simp [itemLines, hau, hu0]
  · decide
  · decide

/-- Witness for C10: a concrete episode with a resolved audio URL gets
its escaped enclosure line. -/
theorem raw_url_insertion_witness :
    ("      <enclosure url=\"".data ++ xml_escape "https://streaming.rtp.pt/ep3.mp3".data ++
      "\" length=\"0\" type=\"audio/mpeg\"/>".data) ∈ itemLines audioEpisode :=
  raw_url_insertion.2.2.1 audioEpisode "https://streaming.rtp.pt/ep3.mp3".data rfl (by decide)
